import Mathlib

/-!
# 3D-particles: hand-gesture classifier and particle store

A shallow embedding of `src/hand-detection.js`, `src/particle-system.js` and the
gesture dispatch of `src/main.js`.

Numbers: JavaScript numbers are modelled as the elements of a linearly ordered
field `α` (exact arithmetic; rounding, `NaN` and infinities are not modelled).
`Math.sqrt`, which `THREE.Vector3.length` and `distanceTo` call, is the explicit
parameter `sqrt : α → α` of every function that reaches it; `Math.random` is a
stream `rnd : Nat → α` of draws; `Math.ceil` is `Int.ceil`.  The definitions are
computable: they run at `α := ℚ` with any computable `sqrt`.

Errors: a JavaScript `TypeError` (reading a property of `undefined`) is the value
`none` of an `Option` result.
-/

set_option autoImplicit false

namespace Particles3D

/-! ## `THREE.Vector3` -/

/-- The three.js vector: three numeric fields. -/
structure Vector3 (α : Type) where
  x : α
  y : α
  z : α
deriving DecidableEq, Repr

namespace Vector3

variable {α : Type} [LinearOrderedField α]

/-- Result of `new THREE.Vector3()`: the zero vector. -/
def zero : Vector3 α := ⟨0, 0, 0⟩

/-- Method `Vector3.add(v)`: componentwise sum. -/
def add (a v : Vector3 α) : Vector3 α := ⟨a.x + v.x, a.y + v.y, a.z + v.z⟩

/-- Method `Vector3.sub(v)`: componentwise difference. -/
def sub (a v : Vector3 α) : Vector3 α := ⟨a.x - v.x, a.y - v.y, a.z - v.z⟩

/-- Method `Vector3.multiplyScalar(s)`. -/
def multiplyScalar (a : Vector3 α) (s : α) : Vector3 α := ⟨a.x * s, a.y * s, a.z * s⟩

/-- Method `Vector3.addScaledVector(v, s)`: `this += v * s`. -/
def addScaledVector (a v : Vector3 α) (s : α) : Vector3 α :=
  ⟨a.x + v.x * s, a.y + v.y * s, a.z + v.z * s⟩

/-- Method `Vector3.dot(v)`: the scalar product. -/
def dot (a v : Vector3 α) : α := a.x * v.x + a.y * v.y + a.z * v.z

/-- Method `Vector3.distanceToSquared(v)`. -/
def distanceToSquared (a v : Vector3 α) : α :=
  let dx := a.x - v.x
  let dy := a.y - v.y
  let dz := a.z - v.z
  dx * dx + dy * dy + dz * dz

/-- Method `Vector3.distanceTo(v)`: `Math.sqrt(this.distanceToSquared(v))`. -/
def distanceTo (sqrt : α → α) (a v : Vector3 α) : α := sqrt (distanceToSquared a v)

/-- Method `Vector3.length()`: `Math.sqrt(x*x + y*y + z*z)`. -/
def length (sqrt : α → α) (a : Vector3 α) : α := sqrt (a.x * a.x + a.y * a.y + a.z * a.z)

/-- Method `Vector3.divideScalar(s)`: `this.multiplyScalar(1 / s)`. -/
def divideScalar (a : Vector3 α) (s : α) : Vector3 α := multiplyScalar a (1 / s)

/-- Method `Vector3.normalize()`: `this.divideScalar(this.length() || 1)`. -/
def normalize (sqrt : α → α) (a : Vector3 α) : Vector3 α :=
  let len := length sqrt a
  divideScalar a (if len = 0 then 1 else len)

end Vector3

/-! ## Hand detection (`src/hand-detection.js`) -/

section HandDetection

variable {α : Type} [LinearOrderedField α]

/-- The `hand` object built by `_convertLandmarks`. -/
structure HandPose (α : Type) where
  handedness : String
  landmarks : List (Vector3 α)
  center : Vector3 α
  indexFinger : Vector3 α
  middleFinger : Vector3 α
  palmCenter : Vector3 α
deriving DecidableEq, Repr

/-- Method `HandDetector._distance(a, b)`: `a.distanceTo(b)`. -/
def _distance (sqrt : α → α) (a b : Vector3 α) : α := Vector3.distanceTo sqrt a b

/-- Method `HandDetector._detectGesture(hand)`.  An array read `lm[i]` past the end
gives `undefined`; the first property read or method call on it raises a
`TypeError`, which is the result `none`. -/
def _detectGesture (sqrt : α → α) (hand : HandPose α) : Option String :=
  let lm := hand.landmarks
  if lm.length = 0 then some "none" else
  let thumbTip := lm[4]?
  let indexTip := lm[8]?
  let middleTip := lm[12]?
  let ringTip := lm[16]?
  let pinkyTip := lm[20]?
  do
    let thumbTip ← thumbTip
    let indexTip ← indexTip
    if _distance sqrt thumbTip indexTip < 1 then some "pinch" else do
    let indexExtended := decide (indexTip.y < (← lm[6]?).y)
    let middleExtended := decide ((← middleTip).y < (← lm[10]?).y)
    let ringExtended := decide ((← ringTip).y < (← lm[14]?).y)
    let pinkyExtended := decide ((← pinkyTip).y < (← lm[18]?).y)
    if indexExtended && !middleExtended && !ringExtended && !pinkyExtended then some "point"
    else if indexExtended && middleExtended && !ringExtended && !pinkyExtended then some "peace"
    else if indexExtended && middleExtended && ringExtended && pinkyExtended then some "open"
    else if !indexExtended && !middleExtended && !ringExtended && !pinkyExtended then some "fist"
    else some "none"

/-- The decision table of the gesture classifier as the specification words it:
pinch first, then one label for each of the sixteen combinations of the four
`extended` flags (index, middle, ring, pinky). -/
def gestureTable (pinch index middle ring pinky : Bool) : String :=
  if pinch then "pinch" else
  match index, middle, ring, pinky with
  | true, false, false, false => "point"
  | true, true, false, false => "peace"
  | true, true, true, true => "open"
  | false, false, false, false => "fist"
  | true, true, true, false => "none"
  | true, true, false, true => "none"
  | true, false, true, true => "none"
  | true, false, true, false => "none"
  | true, false, false, true => "none"
  | false, true, true, true => "none"
  | false, true, true, false => "none"
  | false, true, false, true => "none"
  | false, true, false, false => "none"
  | false, false, true, true => "none"
  | false, false, true, false => "none"
  | false, false, false, true => "none"

/-- One raw landmark of the detection collaborator: normalised image coordinates
and depth. -/
structure NormalizedLandmark (α : Type) where
  x : α
  y : α
  z : α
deriving DecidableEq, Repr

/-- Method `HandDetector._convertLandmarks(landmarks, handedness)`.  The loop
pushes one transformed vector per raw point and accumulates their sum; `center`
is `sum * (1 / landmarks.length)`; the three derived points are copied from
indices 8, 12 and 9 when those entries exist and stay the zero vector otherwise.
(For an empty `landmarks` the JavaScript `1 / 0` is `Infinity`; the field value
`1 / 0 = 0` differs there.) -/
def _convertLandmarks (landmarks : List (NormalizedLandmark α)) (handedness : String) :
    HandPose α :=
  let acc := landmarks.foldl
    (fun (acc : List (Vector3 α) × Vector3 α) l =>
      let x := (l.x - 0.5) * 10
      let y := (0.5 - l.y) * 10
      let z := -l.z * 10
      let v : Vector3 α := ⟨x, y, z⟩
      (acc.1 ++ [v], acc.2.add v))
    ([], ⟨0, 0, 0⟩)
  let lms := acc.1
  let sum := acc.2
  { handedness := handedness
    landmarks := lms
    center := sum.multiplyScalar (1 / (landmarks.length : α))
    indexFinger := match lms[8]? with
      | some v => v
      | none => Vector3.zero
    middleFinger := match lms[12]? with
      | some v => v
      | none => Vector3.zero
    palmCenter := match lms[9]? with
      | some v => v
      | none => Vector3.zero }

/-- The argument of the `onResults` callback: `multiHandLandmarks` (absent, or one
landmark array per detected hand) and `multiHandedness` (absent, or the labels of
its entries). -/
structure Results (α : Type) where
  multiHandLandmarks : Option (List (List (NormalizedLandmark α)))
  multiHandedness : Option (List String)

/-- The mutable fields of a `HandDetector` that the callback and the getters use. -/
structure HandDetector (α : Type) where
  hands : List (HandPose α)
  gesture : String
  readyFlag : Bool
deriving DecidableEq, Repr

/-- The handedness expression of `_onResults`:
`(results.multiHandedness && results.multiHandedness[i]) ? ....label : 'Unknown'`. -/
def handednessAt (results : Results α) (i : Nat) : String :=
  match results.multiHandedness with
  | none => "Unknown"
  | some hs =>
    match hs[i]? with
    | some label => label
    | none => "Unknown"

/-- Method `HandDetector._onResults(results)`.  The result is the detector after
the call and a flag telling whether the call ended by a `TypeError` (raised by
`_detectGesture`, after `hands` was filled and before `gesture` was assigned). -/
def _onResults (sqrt : α → α) (results : Results α) (self : HandDetector α) :
    HandDetector α × Bool :=
  let self := { self with hands := [] }
  match results.multiHandLandmarks with
  | none => ({ self with gesture := "none" }, false)
  | some multiHandLandmarks =>
    let hands := multiHandLandmarks.enum.foldl
      (fun hands (ilm : Nat × List (NormalizedLandmark α)) =>
        hands ++ [_convertLandmarks ilm.2 (handednessAt results ilm.1)])
      self.hands
    let self := { self with hands := hands }
    match self.hands with
    | first :: _ =>
      match _detectGesture sqrt first with
      | some g => ({ self with gesture := g }, false)
      | none => (self, true)
    | [] => ({ self with gesture := "none" }, false)

/-- Method `HandDetector.getHands()`. -/
def getHands (self : HandDetector α) : List (HandPose α) := self.hands

/-- Method `HandDetector.getGesture()`. -/
def getGesture (self : HandDetector α) : String := self.gesture

end HandDetection

/-! ## Particle system (`src/particle-system.js`) -/

section ParticleSystem

variable {α : Type} [LinearOrderedField α]

/-- A `THREE.Color`: three channels. -/
structure Color (α : Type) where
  r : α
  g : α
  b : α
deriving DecidableEq, Repr

/-- Class `Particle`. -/
structure Particle (α : Type) where
  position : Vector3 α
  velocity : Vector3 α
  color : Color α
  life : α
  maxLife : α
deriving DecidableEq, Repr

/-- The constructor of `Particle`: `maxLife` starts equal to `life`. -/
def Particle.new (pos vel : Vector3 α) (color : Color α) (life : α) : Particle α :=
  { position := pos, velocity := vel, color := color, life := life, maxLife := life }

/-- Method `Particle.update(dt, gravity)`. -/
def Particle.update (p : Particle α) (dt gravity : α) : Particle α :=
  let velocity : Vector3 α := { p.velocity with y := p.velocity.y + gravity * dt }
  let position := p.position.addScaledVector velocity dt
  let velocity := velocity.multiplyScalar 0.99
  { p with position := position, velocity := velocity, life := p.life - dt }

/-- Method `Particle.alive()`. -/
def Particle.alive (p : Particle α) : Bool := decide (p.life > 0)

/-- Method `Particle.alpha()`. -/
def Particle.alpha (p : Particle α) : α := max 0 (p.life / p.maxLife)

/-- The `config` object of a `ParticleSystem`. -/
structure Config (α : Type) where
  color : Color α
  size : α
  emissionRate : α
  life : α
  gravity : α
  speed : α
deriving DecidableEq, Repr

/-- The state of a `ParticleSystem`: the particle array, the configuration and the
data of the `position` and `color` attributes of its geometry (`none` until the
first `_syncGeometry`). -/
structure ParticleSystem (α : Type) where
  particles : List (Particle α)
  config : Config α
  geometryPosition : Option (List α)
  geometryColor : Option (List α)
deriving DecidableEq, Repr

namespace ParticleSystem

/-- The constructor of `ParticleSystem`: no particle, the default configuration
(colour `0x00ffff`), no geometry attribute yet. -/
def new : ParticleSystem α :=
  { particles := []
    config :=
      { color := ⟨0, 1, 1⟩, size := 1.0, emissionRate := 60, life := 2.5, gravity := -0.5,
        speed := 6 }
    geometryPosition := none
    geometryColor := none }

/-- The body of the loop of `emit` for index `i`: the particle it creates.  `rnd k`
is the value of the `k`-th call of `Math.random()` made by the enclosing `emit` (five
per particle, in source order: the three jitters, the speed factor, the life
factor). -/
def emitParticle (sqrt : α → α) (rnd : Nat → α) (config : Config α)
    (position direction : Vector3 α) (i : Nat) : Particle α :=
  let dir := direction.normalize sqrt
  let dir : Vector3 α :=
    ⟨dir.x + (rnd (5 * i) - 0.5) * 0.4,
     dir.y + (rnd (5 * i + 1) - 0.5) * 0.4,
     dir.z + (rnd (5 * i + 2) - 0.5) * 0.4⟩
  let dir := dir.normalize sqrt
  let velocity := dir.multiplyScalar (config.speed * (0.5 + rnd (5 * i + 3)))
  Particle.new position velocity config.color (config.life * (0.8 + 0.4 * rnd (5 * i + 4)))

/-- Method `ParticleSystem.emit(position, direction, count)`: the loop
`for (let i = 0; i < count; i++)` pushes one new particle per iteration. -/
def emit (sqrt : α → α) (rnd : Nat → α) (self : ParticleSystem α)
    (position direction : Vector3 α) (count : Int) : ParticleSystem α :=
  { self with
    particles := (List.range count.toNat).foldl
      (fun particles i => particles ++ [emitParticle sqrt rnd self.config position direction i])
      self.particles }

/-- Method `ParticleSystem.addForce(position, forceVec, radius)`. -/
def addForce (sqrt : α → α) (self : ParticleSystem α) (position forceVec : Vector3 α)
    (radius : α) : ParticleSystem α :=
  { self with
    particles := self.particles.map fun p =>
      let d := p.position.distanceTo sqrt position
      if d < radius then
        let f := forceVec.multiplyScalar (1 - d / radius)
        { p with velocity := p.velocity.add f }
      else p }

/-- The body of the loop of `_syncGeometry` for index `ip.1` and particle `ip.2`:
six indexed writes into the two arrays. -/
def syncStep (bufs : List α × List α) (ip : Nat × Particle α) : List α × List α :=
  let i := ip.1
  let p := ip.2
  let pos := bufs.1.set (i * 3) p.position.x
  let pos := pos.set (i * 3 + 1) p.position.y
  let pos := pos.set (i * 3 + 2) p.position.z
  let a := p.alpha
  let col := bufs.2.set (i * 3) (p.color.r * a)
  let col := col.set (i * 3 + 1) (p.color.g * a)
  let col := col.set (i * 3 + 2) (p.color.b * a)
  (pos, col)

/-- Method `ParticleSystem._syncGeometry()`: two fresh arrays of `n * 3` zeros,
filled by index, become the data of the two geometry attributes. -/
def _syncGeometry (self : ParticleSystem α) : ParticleSystem α :=
  let n := self.particles.length
  if n = 0 then { self with geometryPosition := some [], geometryColor := some [] } else
  let pos : List α := List.replicate (n * 3) 0
  let col : List α := List.replicate (n * 3) 0
  let bufs := self.particles.enum.foldl syncStep (pos, col)
  { self with geometryPosition := some bufs.1, geometryColor := some bufs.2 }

/-- The loop of `update`: `i` runs from `particles.length - 1` down to `0`; here
the counter is `i + 1`.  The particle at `i` is updated in place and spliced out
when it is no longer alive. -/
def updateLoop (dt gravity : α) :
    (k : Nat) → (particles : List (Particle α)) → k ≤ particles.length → List (Particle α)
  | 0, particles, _ => particles
  | i + 1, particles, h =>
    let p := (particles.get ⟨i, h⟩).update dt gravity
    let particles1 := particles.set i p
    if p.alive then
      updateLoop dt gravity i particles1 (by
        rw [List.length_set]; exact Nat.le_of_succ_le h)
    else
      updateLoop dt gravity i (particles1.eraseIdx i) (by
        rw [List.length_eraseIdx, List.length_set]; split <;> omega)

/-- Method `ParticleSystem.update(dt)`. -/
def update (self : ParticleSystem α) (dt : α) : ParticleSystem α :=
  _syncGeometry
    { self with
      particles := updateLoop dt self.config.gravity self.particles.length self.particles
        (Nat.le_refl _) }

/-- Method `ParticleSystem.clear()`. -/
def clear (self : ParticleSystem α) : ParticleSystem α :=
  _syncGeometry { self with particles := [] }

/-- Method `ParticleSystem.getParticleCount()`. -/
def getParticleCount (self : ParticleSystem α) : Nat := self.particles.length

end ParticleSystem

/-- The stores reachable from a store without particles by calls of `emit`,
`addForce`, `clear` and `update`; `okDt` says which time steps `update` is called
with. -/
inductive Reachable (sqrt : α → α) (okDt : α → Prop) : ParticleSystem α → Prop
  | empty (s : ParticleSystem α) : s.particles = [] → Reachable sqrt okDt s
  | emit (rnd : Nat → α) (s : ParticleSystem α) (position direction : Vector3 α) (count : Int) :
      Reachable sqrt okDt s →
      Reachable sqrt okDt (ParticleSystem.emit sqrt rnd s position direction count)
  | addForce (s : ParticleSystem α) (position forceVec : Vector3 α) (radius : α) :
      Reachable sqrt okDt s →
      Reachable sqrt okDt (ParticleSystem.addForce sqrt s position forceVec radius)
  | clear (s : ParticleSystem α) : Reachable sqrt okDt s → Reachable sqrt okDt (ParticleSystem.clear s)
  | update (s : ParticleSystem α) (dt : α) : okDt dt → Reachable sqrt okDt s →
      Reachable sqrt okDt (ParticleSystem.update s dt)

end ParticleSystem

/-! ## Main application (`src/main.js`) -/

section Main

variable {α : Type} [LinearOrderedField α] [FloorRing α]

/-- Method `HandDetector.isReady()`. -/
def isReady (self : HandDetector α) : Bool := self.readyFlag

/-- The body of the loop `for (const hand of hands)` of `_handleGestures`: the
`switch (gesture)` for one hand.  The state is the particle system and the number of
`Math.random()` calls made so far by the enclosing `_handleGestures`; `rnd k` is the
value of its `k`-th call.  `Math.ceil` is `Int.ceil`. -/
def dispatchHand (sqrt : α → α) (rnd : Nat → α) (gesture : String)
    (st : ParticleSystem α × Nat) (hand : HandPose α) : ParticleSystem α × Nat :=
  let particleSystem := st.1
  let k := st.2
  let dir := (hand.indexFinger.sub hand.palmCenter).normalize sqrt
  match gesture with
  | "point" =>
    let count : Int := ⌈particleSystem.config.emissionRate * 0.02⌉
    (particleSystem.emit sqrt (fun j => rnd (k + j)) hand.indexFinger dir count,
      k + 5 * count.toNat)
  | "pinch" =>
    (particleSystem.addForce sqrt hand.indexFinger (dir.multiplyScalar (-10)) 4, k)
  | "open" =>
    (particleSystem.addForce sqrt hand.palmCenter (dir.multiplyScalar 20) 6, k)
  | "peace" =>
    (particleSystem.addForce sqrt hand.palmCenter
      ⟨(rnd k - 0.5) * 20, (rnd (k + 1) - 0.5) * 20, (rnd (k + 2) - 0.5) * 20⟩ 8, k + 3)
  | "fist" => st
  | _ => st

/-- Method `ParticleApp._handleGestures()`, on the two objects it uses: the hand
detector (read) and the particle system (updated).  The writes to the status
elements of the page are not modelled. -/
def _handleGestures (sqrt : α → α) (rnd : Nat → α) (handDetector : HandDetector α)
    (particleSystem : ParticleSystem α) : ParticleSystem α :=
  if !isReady handDetector then particleSystem else
  let hands := getHands handDetector
  let gesture := getGesture handDetector
  (hands.foldl (dispatchHand sqrt rnd gesture) (particleSystem, 0)).1

end Main

/-! ## Specification-side definitions and concrete inputs -/

section Inputs

variable {α : Type} [LinearOrderedField α]

/-- The stepped particle as the specification words it: `velocity.y` increased by
`gravity * dt`, then the position increased by the new velocity times `dt`, then
the velocity multiplied by 0.99, then `life` decreased by `dt`. -/
def steppedParticle (dt gravity : α) (p : Particle α) : Particle α :=
  { position :=
      ⟨p.position.x + p.velocity.x * dt,
       p.position.y + (p.velocity.y + gravity * dt) * dt,
       p.position.z + p.velocity.z * dt⟩
    velocity :=
      ⟨p.velocity.x * 0.99, (p.velocity.y + gravity * dt) * 0.99, p.velocity.z * 0.99⟩
    color := p.color
    life := p.life - dt
    maxLife := p.maxLife }

/-- What the theorems about Euclidean norms assume of `Math.sqrt`: on a number that
is not negative it returns the root that is not negative. -/
def IsSqrt (sqrt : α → α) : Prop := ∀ x, 0 ≤ x → 0 ≤ sqrt x ∧ sqrt x * sqrt x = x

/-- The per-point transform as the specification words it:
`x' = (x - 0.5) * 10`, `y' = (0.5 - y) * 10`, `z' = -z * 10`. -/
def transformLandmark (l : NormalizedLandmark α) : Vector3 α :=
  ⟨(l.x - 0.5) * 10, (0.5 - l.y) * 10, -l.z * 10⟩

/-- A raw detection of 21 points, all at `(0.6, 0.4, 0.1)`. -/
def rawHand : List (NormalizedLandmark ℚ) := List.replicate 21 ⟨0.6, 0.4, 0.1⟩

/-- A detection result with one hand of a single point. -/
def shortResults : Results ℚ :=
  { multiHandLandmarks := some [[⟨0.5, 0.5, 0⟩]], multiHandedness := some ["Right"] }

/-- A detection result with no hand. -/
def noHandResults : Results ℚ :=
  { multiHandLandmarks := some [], multiHandedness := some [] }

/-- A pose of 21 landmarks: thumb tip (4) at the origin, index tip (8) at
`(0.3, 0, 0)`, every other landmark at the origin. -/
def pinchPose : HandPose ℚ :=
  { handedness := "Right"
    landmarks := List.replicate 8 ⟨0, 0, 0⟩ ++ [⟨0.3, 0, 0⟩] ++ List.replicate 12 ⟨0, 0, 0⟩
    center := ⟨0, 0, 0⟩
    indexFinger := ⟨0.3, 0, 0⟩
    middleFinger := ⟨0, 0, 0⟩
    palmCenter := ⟨0, 0, 0⟩ }

/-- A ready detector holding the hand and the gesture of an earlier frame. -/
def earlierDetector : HandDetector ℚ :=
  { hands := [pinchPose], gesture := "pinch", readyFlag := true }

/-- A particle at rest at `(1, 0, 0)` with 2 of its 2.5 seconds left. -/
def restingParticle : Particle ℚ :=
  { position := ⟨1, 0, 0⟩, velocity := ⟨0, 0, 0⟩, color := ⟨0, 1, 1⟩, life := 2, maxLife := 2.5 }

/-- A particle with 0.05 seconds left. -/
def dyingParticle : Particle ℚ :=
  { position := ⟨0, 0, 0⟩, velocity := ⟨1, 1, 1⟩, color := ⟨0, 1, 1⟩, life := 0.05,
    maxLife := 2.5 }

/-- A store holding `restingParticle` followed by `dyingParticle`. -/
def twoParticleStore : ParticleSystem ℚ :=
  { (ParticleSystem.new : ParticleSystem ℚ) with particles := [restingParticle, dyingParticle] }

/-- The store after one `emit` of a single particle from a fresh system, every
random draw being 0.5. -/
def emittedStore : ParticleSystem ℚ :=
  ParticleSystem.emit Rat.sqrt (fun _ => 0.5) ParticleSystem.new ⟨0, 0, 0⟩ ⟨1, 0, 0⟩ 1

/-- A detector that has seen no frame yet. -/
def freshDetector : HandDetector ℚ :=
  { hands := [], gesture := "none", readyFlag := true }

/-- A raw detection of ten points: thumb tip (4) at the image centre, index tip (8)
at `(0.9, 0.5, 0)`; indices 10 to 20 are missing. -/
def tenPointHand : List (NormalizedLandmark ℚ) :=
  List.replicate 8 ⟨0.5, 0.5, 0⟩ ++ [⟨0.9, 0.5, 0⟩, ⟨0.5, 0.5, 0⟩]

/-- A detection result whose only hand is `tenPointHand`. -/
def tenPointResults : Results ℚ :=
  { multiHandLandmarks := some [tenPointHand], multiHandedness := some ["Right"] }

/-- A raw detection of 21 points of an upright open hand: the four fingertips (8,
12, 16, 20) at image height `y = 0.2`, their PIP joints (6, 10, 14, 18) lower in the
image at `y = 0.4`, the thumb tip (4) at `(0.1, 0.5)`, the other points at
`y = 0.5`. -/
def uprightOpenHand : List (NormalizedLandmark ℚ) :=
  [⟨0.5, 0.5, 0⟩, ⟨0.5, 0.5, 0⟩, ⟨0.5, 0.5, 0⟩, ⟨0.5, 0.5, 0⟩, ⟨0.1, 0.5, 0⟩,
   ⟨0.5, 0.5, 0⟩, ⟨0.5, 0.4, 0⟩, ⟨0.5, 0.5, 0⟩, ⟨0.5, 0.2, 0⟩,
   ⟨0.5, 0.5, 0⟩, ⟨0.5, 0.4, 0⟩, ⟨0.5, 0.5, 0⟩, ⟨0.5, 0.2, 0⟩,
   ⟨0.5, 0.5, 0⟩, ⟨0.5, 0.4, 0⟩, ⟨0.5, 0.5, 0⟩, ⟨0.5, 0.2, 0⟩,
   ⟨0.5, 0.5, 0⟩, ⟨0.5, 0.4, 0⟩, ⟨0.5, 0.5, 0⟩, ⟨0.5, 0.2, 0⟩]

/-- A pose of 21 landmarks whose index tip (8) is at `y = -2` with its PIP joint (6)
at `y = -1`, whose thumb tip (4) coincides with the index tip, and whose other
landmarks are at the origin. -/
def pointWithThumbPose : HandPose ℚ :=
  { handedness := "Right"
    landmarks := List.replicate 4 ⟨0, 0, 0⟩ ++ [⟨0, -2, 0⟩, ⟨0, 0, 0⟩, ⟨0, -1, 0⟩, ⟨0, 0, 0⟩,
      ⟨0, -2, 0⟩] ++ List.replicate 12 ⟨0, 0, 0⟩
    center := ⟨0, 0, 0⟩
    indexFinger := ⟨0, -2, 0⟩
    middleFinger := ⟨0, 0, 0⟩
    palmCenter := ⟨0, 0, 0⟩ }

/-- The same pose with the thumb tip (4) at `(3, -2, 0)`, at distance 3 from the
index tip. -/
def pointPose : HandPose ℚ :=
  { handedness := "Right"
    landmarks := List.replicate 4 ⟨0, 0, 0⟩ ++ [⟨3, -2, 0⟩, ⟨0, 0, 0⟩, ⟨0, -1, 0⟩, ⟨0, 0, 0⟩,
      ⟨0, -2, 0⟩] ++ List.replicate 12 ⟨0, 0, 0⟩
    center := ⟨0, 0, 0⟩
    indexFinger := ⟨0, -2, 0⟩
    middleFinger := ⟨0, 0, 0⟩
    palmCenter := ⟨0, 0, 0⟩ }

/-- A hand whose palm centre is the origin and whose index fingertip is `(1, 0, 0)`. -/
def unitHand : HandPose ℚ :=
  { handedness := "Right"
    landmarks := []
    center := ⟨0, 0, 0⟩
    indexFinger := ⟨1, 0, 0⟩
    middleFinger := ⟨0, 0, 0⟩
    palmCenter := ⟨0, 0, 0⟩ }

/-- A ready detector holding `unitHand` with the gesture `g`. -/
def unitHandDetector (g : String) : HandDetector ℚ :=
  { hands := [unitHand], gesture := g, readyFlag := true }

/-- A particle at rest at the origin, the palm centre of `unitHand`. -/
def palmParticle : Particle ℚ :=
  { position := ⟨0, 0, 0⟩, velocity := ⟨0, 0, 0⟩, color := ⟨0, 1, 1⟩, life := 2, maxLife := 2.5 }

/-- A store holding `palmParticle` only. -/
def palmStore : ParticleSystem ℚ :=
  { (ParticleSystem.new : ParticleSystem ℚ) with particles := [palmParticle] }

/-- A fresh system whose configured speed is 0. -/
def stillStore : ParticleSystem ℚ :=
  { (ParticleSystem.new : ParticleSystem ℚ) with
    config := { (ParticleSystem.new : ParticleSystem ℚ).config with speed := 0 } }

end Inputs

/-! ## Gesture classifier: theorems -/

section GestureTheorems

variable {α : Type} [LinearOrderedField α]

/-- Reading a list inside its bounds gives the element at that position. -/
theorem getElem?_eq_some_get {β : Type} (l : List β) (i : Nat) (hi : i < l.length) :
    l[i]? = some (l.get ⟨i, hi⟩) := by
  simp [List.getElem?_eq_getElem hi]

/-- The classifier on a pose whose nine landmarks it reads are present. -/
theorem detectGesture_of_landmarks (sqrt : α → α) (hand : HandPose α)
    (l4 l6 l8 l10 l12 l14 l16 l18 l20 : Vector3 α)
    (h4 : hand.landmarks[4]? = some l4) (h6 : hand.landmarks[6]? = some l6)
    (h8 : hand.landmarks[8]? = some l8) (h10 : hand.landmarks[10]? = some l10)
    (h12 : hand.landmarks[12]? = some l12) (h14 : hand.landmarks[14]? = some l14)
    (h16 : hand.landmarks[16]? = some l16) (h18 : hand.landmarks[18]? = some l18)
    (h20 : hand.landmarks[20]? = some l20) :
    _detectGesture sqrt hand = some (gestureTable
      (decide (sqrt ((l4.x - l8.x) ^ 2 + (l4.y - l8.y) ^ 2 + (l4.z - l8.z) ^ 2) < 1))
      (decide (l8.y < l6.y)) (decide (l12.y < l10.y)) (decide (l16.y < l14.y))
      (decide (l20.y < l18.y))) := by
  have hne : hand.landmarks.length ≠ 0 := by
    intro h0
    rw [List.length_eq_zero] at h0
    simp [h0] at h4
  unfold _detectGesture
  simp only [h4, h6, h8, h10, h12, h14, h16, h18, h20, hne, _distance, Vector3.distanceTo,
    Vector3.distanceToSquared, sq]
  simp only [Option.bind_eq_bind, Option.some_bind, Option.pure_def]
  generalize decide (l8.y < l6.y) = b1
  generalize decide (l12.y < l10.y) = b2
  generalize decide (l16.y < l14.y) = b3
  generalize decide (l20.y < l18.y) = b4
  by_cases hp : sqrt ((l4.x - l8.x) * (l4.x - l8.x) + (l4.y - l8.y) * (l4.y - l8.y)
      + (l4.z - l8.z) * (l4.z - l8.z)) < 1
  · simp [hp, gestureTable]
  · cases b1 <;> cases b2 <;> cases b3 <;> cases b4 <;> simp [hp, gestureTable]

/-- C1: on a hand pose with 21 landmarks `_detectGesture` returns (without raising)
the label of the first-match-wins table: `pinch` when the Euclidean distance between
landmarks 4 and 8 is below 1, otherwise the label that `gestureTable` gives to the
four flags `landmarks[tip].y < landmarks[pip].y` for (8,6), (12,10), (16,14),
(20,18). -/
theorem detectGesture_eq_gestureTable (sqrt : α → α) (hand : HandPose α)
    (h : hand.landmarks.length = 21) :
    _detectGesture sqrt hand = some (gestureTable
      (decide (sqrt (((hand.landmarks.get ⟨4, by omega⟩).x - (hand.landmarks.get ⟨8, by omega⟩).x) ^ 2
        + ((hand.landmarks.get ⟨4, by omega⟩).y - (hand.landmarks.get ⟨8, by omega⟩).y) ^ 2
        + ((hand.landmarks.get ⟨4, by omega⟩).z - (hand.landmarks.get ⟨8, by omega⟩).z) ^ 2) < 1))
      (decide ((hand.landmarks.get ⟨8, by omega⟩).y < (hand.landmarks.get ⟨6, by omega⟩).y))
      (decide ((hand.landmarks.get ⟨12, by omega⟩).y < (hand.landmarks.get ⟨10, by omega⟩).y))
      (decide ((hand.landmarks.get ⟨16, by omega⟩).y < (hand.landmarks.get ⟨14, by omega⟩).y))
      (decide ((hand.landmarks.get ⟨20, by omega⟩).y < (hand.landmarks.get ⟨18, by omega⟩).y))) :=
  detectGesture_of_landmarks sqrt hand _ _ _ _ _ _ _ _ _
    (getElem?_eq_some_get hand.landmarks 4 (by omega))
    (getElem?_eq_some_get hand.landmarks 6 (by omega))
    (getElem?_eq_some_get hand.landmarks 8 (by omega))
    (getElem?_eq_some_get hand.landmarks 10 (by omega))
    (getElem?_eq_some_get hand.landmarks 12 (by omega))
    (getElem?_eq_some_get hand.landmarks 14 (by omega))
    (getElem?_eq_some_get hand.landmarks 16 (by omega))
    (getElem?_eq_some_get hand.landmarks 18 (by omega))
    (getElem?_eq_some_get hand.landmarks 20 (by omega))

/-- Witness of `detectGesture_eq_gestureTable`: the scenario with the thumb tip at the
origin and the index tip at `(0.3, 0, 0)` is classified as a pinch. -/
theorem detectGesture_eq_gestureTable_witness :
    pinchPose.landmarks.length = 21 ∧ _detectGesture Rat.sqrt pinchPose = some "pinch" :=
  ⟨rfl, by
    rw [detectGesture_eq_gestureTable Rat.sqrt pinchPose rfl]
    simp only [pinchPose, List.replicate, List.cons_append, List.nil_append, List.append_nil,
      List.get]
    norm_num [gestureTable, Rat.sqrt]⟩

end GestureTheorems

/-! ## Particle store: theorems -/

section StoreTheorems

variable {α : Type} [LinearOrderedField α]

open ParticleSystem

/-- C2: `addForce(origin, force, radius)` keeps the number and the order of the
particles and, at every index, the position, colour, life and maxLife; the velocity
becomes `velocity + force * (1 - d / radius)` when the Euclidean distance `d` from the
particle to `origin` is below `radius` and is unchanged when `d >= radius`.  This
holds for every radius, in particular for every radius > 0.  A particle at distance
1 with zero velocity under force `(10, 0, 0)` and radius 2 ends with velocity
`(5, 0, 0)`. -/
theorem addForce_spec (sqrt : α → α) (self : ParticleSystem α) (origin force : Vector3 α)
    (radius : α) :
    (addForce sqrt self origin force radius).particles.length = self.particles.length ∧
    (∀ (i : Nat) (hi : i < self.particles.length),
      ∃ q, (addForce sqrt self origin force radius).particles[i]? = some q ∧
        q.position = (self.particles.get ⟨i, hi⟩).position ∧
        q.color = (self.particles.get ⟨i, hi⟩).color ∧
        q.life = (self.particles.get ⟨i, hi⟩).life ∧
        q.maxLife = (self.particles.get ⟨i, hi⟩).maxLife ∧
        (sqrt (((self.particles.get ⟨i, hi⟩).position.x - origin.x) ^ 2
            + ((self.particles.get ⟨i, hi⟩).position.y - origin.y) ^ 2
            + ((self.particles.get ⟨i, hi⟩).position.z - origin.z) ^ 2) < radius →
          q.velocity =
            ⟨(self.particles.get ⟨i, hi⟩).velocity.x + force.x *
                (1 - sqrt (((self.particles.get ⟨i, hi⟩).position.x - origin.x) ^ 2
                  + ((self.particles.get ⟨i, hi⟩).position.y - origin.y) ^ 2
                  + ((self.particles.get ⟨i, hi⟩).position.z - origin.z) ^ 2) / radius),
              (self.particles.get ⟨i, hi⟩).velocity.y + force.y *
                (1 - sqrt (((self.particles.get ⟨i, hi⟩).position.x - origin.x) ^ 2
                  + ((self.particles.get ⟨i, hi⟩).position.y - origin.y) ^ 2
                  + ((self.particles.get ⟨i, hi⟩).position.z - origin.z) ^ 2) / radius),
              (self.particles.get ⟨i, hi⟩).velocity.z + force.z *
                (1 - sqrt (((self.particles.get ⟨i, hi⟩).position.x - origin.x) ^ 2
                  + ((self.particles.get ⟨i, hi⟩).position.y - origin.y) ^ 2
                  + ((self.particles.get ⟨i, hi⟩).position.z - origin.z) ^ 2) / radius)⟩) ∧
        (radius ≤ sqrt (((self.particles.get ⟨i, hi⟩).position.x - origin.x) ^ 2
            + ((self.particles.get ⟨i, hi⟩).position.y - origin.y) ^ 2
            + ((self.particles.get ⟨i, hi⟩).position.z - origin.z) ^ 2) →
          q.velocity = (self.particles.get ⟨i, hi⟩).velocity)) ∧
    (∀ p : Particle α, p.velocity = ⟨0, 0, 0⟩ →
      sqrt ((p.position.x - origin.x) ^ 2 + (p.position.y - origin.y) ^ 2
        + (p.position.z - origin.z) ^ 2) = 1 →
      (addForce sqrt { self with particles := [p] } origin ⟨10, 0, 0⟩ 2).particles
        = [{ p with velocity := ⟨5, 0, 0⟩ }]) := by
  refine ⟨by simp [addForce], ?_, ?_⟩
  · intro i hi
    generalize hp : self.particles.get ⟨i, hi⟩ = p
    have hget : self.particles[i]? = some p := by
      rw [getElem?_eq_some_get self.particles i hi, hp]
    simp only [addForce, List.getElem?_map, hget, Option.map_some', Vector3.distanceTo,
      Vector3.distanceToSquared, ← sq]
    refine ⟨_, rfl, ?_⟩
    split
    · rename_i hd
      refine ⟨rfl, rfl, rfl, rfl, fun _ => ?_, fun hle => absurd hd (not_lt.mpr hle)⟩
      simp [Vector3.add, Vector3.multiplyScalar]
    · rename_i hd
      exact ⟨rfl, rfl, rfl, rfl, fun h => absurd h hd, fun _ => rfl⟩
  · intro p hv hd
    simp only [addForce, List.map, Vector3.distanceTo, Vector3.distanceToSquared, ← sq, hd]
    norm_num [hv, Vector3.add, Vector3.multiplyScalar]

/-- Witness of `addForce_spec`: `restingParticle` is at distance 1 from the origin
and at rest; force `(10, 0, 0)` with radius 2 gives it the velocity `(5, 0, 0)`. -/
theorem addForce_spec_witness :
    restingParticle.velocity = ⟨0, 0, 0⟩ ∧
    Rat.sqrt ((restingParticle.position.x - 0) ^ 2 + (restingParticle.position.y - 0) ^ 2
      + (restingParticle.position.z - 0) ^ 2) = 1 ∧
    (addForce Rat.sqrt { twoParticleStore with particles := [restingParticle] }
        ⟨0, 0, 0⟩ ⟨10, 0, 0⟩ 2).particles
      = [{ restingParticle with velocity := ⟨5, 0, 0⟩ }] :=
  ⟨rfl, by norm_num [restingParticle, Rat.sqrt],
    (addForce_spec Rat.sqrt twoParticleStore ⟨0, 0, 0⟩ ⟨10, 0, 0⟩ 2).2.2 restingParticle rfl
      (by norm_num [restingParticle, Rat.sqrt])⟩

/-- The method `Particle.update` computes the stepped particle of the specification. -/
theorem particle_update_eq_stepped (p : Particle α) (dt gravity : α) :
    p.update dt gravity = steppedParticle dt gravity p := by
  simp [Particle.update, steppedParticle, Vector3.addScaledVector, Vector3.multiplyScalar]

/-- Two calls of the loop of `update` on equal lists give equal results. -/
theorem updateLoop_congr (dt gravity : α) (k : Nat) (ps qs : List (Particle α))
    (h : k ≤ ps.length) (e : ps = qs) :
    updateLoop dt gravity k ps h = updateLoop dt gravity k qs (e ▸ h) := by
  subst e; rfl

/-- The loop of `update`, started with `pre.length` indices to go on `pre ++ rest`,
steps and filters `pre` and leaves `rest` alone. -/
theorem updateLoop_append (dt gravity : α) :
    ∀ (k : Nat) (pre rest : List (Particle α)) (h : k ≤ (pre ++ rest).length),
      pre.length = k →
      updateLoop dt gravity k (pre ++ rest) h
        = (pre.map fun p => p.update dt gravity).filter (fun p => p.alive) ++ rest := by
  intro k
  induction k with
  | zero =>
    intro pre rest h hk
    have : pre = [] := List.length_eq_zero.mp hk
    subst this
    simp [updateLoop]
  | succ i ih =>
    intro pre rest h hk
    obtain ⟨pre1, a, rfl⟩ : ∃ pre1 a, pre = pre1 ++ [a] := by
      rcases List.eq_nil_or_concat pre with hnil | ⟨l, b, hb⟩
      · subst hnil; simp at hk
      · exact ⟨l, b, by simpa using hb⟩
    have hlen : pre1.length = i := by simpa using hk
    have hget : (pre1 ++ [a] ++ rest).get ⟨i, h⟩ = a := by
      simp [List.getElem_append_left, List.getElem_append_right, hlen]
    unfold updateLoop
    simp only [hget]
    have hset : (pre1 ++ [a] ++ rest).set i (a.update dt gravity)
        = pre1 ++ (a.update dt gravity :: rest) := by
      simp [List.set_append_right, hlen]
    have herase : ((pre1 ++ [a] ++ rest).set i (a.update dt gravity)).eraseIdx i
        = pre1 ++ rest := by
      rw [hset, List.eraseIdx_append_of_length_le (by omega)]
      simp [hlen]
    by_cases hal : (a.update dt gravity).alive = true
    · simp only [hal, if_true]
      rw [updateLoop_congr dt gravity i _ _ _ hset, ih pre1 _ _ hlen]
      simp [List.filter_cons, hal]
    · simp only [hal, if_false]
      rw [updateLoop_congr dt gravity i _ _ _ herase, ih pre1 _ _ hlen]
      simp [List.filter_cons, hal]

/-- The whole loop of `update` is a map followed by a filter. -/
theorem updateLoop_full (dt gravity : α) (ps : List (Particle α)) :
    updateLoop dt gravity ps.length ps (Nat.le_refl _)
      = (ps.map fun p => p.update dt gravity).filter (fun p => p.alive) := by
  have h := updateLoop_append dt gravity ps.length ps [] (by simp) rfl
  rw [updateLoop_congr dt gravity ps.length ps (ps ++ []) _ (List.append_nil ps).symm, h,
    List.append_nil]

/-- Three indexed writes at `k * 3`, `k * 3 + 1`, `k * 3 + 2` replace the three
entries that follow a prefix of length `k * 3`. -/
theorem set3_append {β : Type} (done rest : List β) (k : Nat) (a b c u v w : β)
    (hk : done.length = k * 3) :
    (((done ++ u :: v :: w :: rest).set (k * 3) a).set (k * 3 + 1) b).set (k * 3 + 2) c
      = done ++ a :: b :: c :: rest := by
  rw [List.set_append_right _ _ (by omega), List.set_append_right _ _ (by omega),
    List.set_append_right _ _ (by omega)]
  have e0 : k * 3 - done.length = 0 := by omega
  have e1 : k * 3 + 1 - done.length = 1 := by omega
  have e2 : k * 3 + 2 - done.length = 2 := by omega
  rw [e0, e1, e2]
  rfl

/-- The fill loop of `_syncGeometry`, started at index `k` on buffers whose first
`k * 3` entries are done and whose remaining entries are zero, appends one triple
per particle. -/
theorem foldl_syncStep (l : List (Particle α)) :
    ∀ (k : Nat) (donePos doneCol : List α), donePos.length = k * 3 → doneCol.length = k * 3 →
      (l.enumFrom k).foldl syncStep
          (donePos ++ List.replicate (l.length * 3) 0, doneCol ++ List.replicate (l.length * 3) 0)
        = (donePos ++ l.flatMap (fun p => [p.position.x, p.position.y, p.position.z]),
           doneCol ++ l.flatMap
             (fun p => [p.color.r * p.alpha, p.color.g * p.alpha, p.color.b * p.alpha])) := by
  induction l with
  | nil => intro k donePos doneCol _ _; simp
  | cons p l ih =>
    intro k donePos doneCol hp hc
    have hrep : List.replicate ((p :: l).length * 3) (0 : α)
        = 0 :: 0 :: 0 :: List.replicate (l.length * 3) 0 := by
      rw [List.length_cons, Nat.add_mul, Nat.one_mul]
      rfl
    rw [hrep, List.enumFrom_cons, List.foldl_cons]
    have hstep : syncStep (donePos ++ 0 :: 0 :: 0 :: List.replicate (l.length * 3) 0,
          doneCol ++ 0 :: 0 :: 0 :: List.replicate (l.length * 3) 0) (k, p)
        = ((donePos ++ [p.position.x, p.position.y, p.position.z])
              ++ List.replicate (l.length * 3) 0,
           (doneCol ++ [p.color.r * p.alpha, p.color.g * p.alpha, p.color.b * p.alpha])
              ++ List.replicate (l.length * 3) 0) := by
      simp only [syncStep, set3_append _ _ k _ _ _ _ _ _ hp, set3_append _ _ k _ _ _ _ _ _ hc]
      simp
    rw [hstep, ih (k + 1) _ _ (by simp [hp]; ring) (by simp [hc]; ring)]
    simp

/-- Reading the three entries of the `i`-th triple of a flattened list of triples. -/
theorem getElem?_flatMap_triple {β γ : Type} (f g h : β → γ) (l : List β) :
    ∀ (i : Nat) (hi : i < l.length),
      (l.flatMap fun p => [f p, g p, h p])[3 * i]? = some (f (l.get ⟨i, hi⟩)) ∧
      (l.flatMap fun p => [f p, g p, h p])[3 * i + 1]? = some (g (l.get ⟨i, hi⟩)) ∧
      (l.flatMap fun p => [f p, g p, h p])[3 * i + 2]? = some (h (l.get ⟨i, hi⟩)) := by
  induction l with
  | nil => intro i hi; simp at hi
  | cons p l ih =>
    intro i hi
    cases i with
    | zero => simp
    | succ j =>
      have hj : j < l.length := by simpa using hi
      have e0 : 3 * (j + 1) = 3 * j + 1 + 1 + 1 := by ring
      have e1 : 3 * (j + 1) + 1 = 3 * j + 1 + 1 + 1 + 1 := by ring
      have e2 : 3 * (j + 1) + 2 = 3 * j + 2 + 1 + 1 + 1 := by ring
      obtain ⟨h0, h1, h2⟩ := ih j hj
      rw [e1, e2, e0]
      simp only [List.flatMap_cons, List.cons_append, List.nil_append, List.getElem?_cons_succ,
        List.get_cons_succ]
      exact ⟨h0, h1, h2⟩

/-- A flattened list of triples is three times as long as the list. -/
theorem length_flatMap_triple {β γ : Type} (f g h : β → γ) (l : List β) :
    (l.flatMap fun p => [f p, g p, h p]).length = 3 * l.length := by
  induction l with
  | nil => rfl
  | cons p l ih => simp [ih]; ring

/-- The buffers that `_syncGeometry` stores are the flattened triples; the particles
and the configuration are not touched. -/
theorem syncGeometry_buffers (self : ParticleSystem α) :
    (_syncGeometry self).geometryPosition
      = some (self.particles.flatMap fun p => [p.position.x, p.position.y, p.position.z]) ∧
    (_syncGeometry self).geometryColor
      = some (self.particles.flatMap fun p =>
          [p.color.r * p.alpha, p.color.g * p.alpha, p.color.b * p.alpha]) ∧
    (_syncGeometry self).particles = self.particles ∧
    (_syncGeometry self).config = self.config := by
  unfold _syncGeometry
  by_cases h0 : self.particles.length = 0
  · have : self.particles = [] := List.length_eq_zero.mp h0
    simp [this]
  · have h := foldl_syncStep self.particles 0 [] [] rfl rfl
    simp only [List.nil_append] at h
    simp only [h0, if_false, List.enum, h]
    simp

/-- The particle array after `update`: every particle updated, the dead filtered out. -/
theorem update_particles (self : ParticleSystem α) (dt : α) :
    (update self dt).particles
      = (self.particles.map fun p => p.update dt self.config.gravity).filter
          (fun p => p.alive) := by
  unfold update
  rw [(syncGeometry_buffers _).2.2.1]
  exact updateLoop_full dt self.config.gravity self.particles

/-- C3: `update(dt)` leaves in the store the stepped particles (`steppedParticle`: the
source's four assignments in order) whose new life is positive, each stepped once, in
their original order; no particle with new life above 0 is removed.  With `dt = 0.1`
a particle with life 0.05 is removed: the store is the one obtained without it, and
the count decreases by exactly 1 when every other particle outlives the step. -/
theorem update_spec (self : ParticleSystem α) (dt : α) :
    (update self dt).particles
      = (self.particles.map (steppedParticle dt self.config.gravity)).filter
          (fun p => decide (0 < p.life)) ∧
    (∀ (pre post : List (Particle α)) (p : Particle α),
      self.particles = pre ++ p :: post → p.life = 0.05 →
      (update self 0.1).particles
        = ((pre ++ post).map (steppedParticle 0.1 self.config.gravity)).filter
            (fun q => decide (0 < q.life)) ∧
      ((∀ q ∈ pre ++ post, 0.1 < q.life) →
        getParticleCount (update self 0.1) + 1 = getParticleCount self)) := by
  have key : ∀ d : α, (update self d).particles
      = (self.particles.map (steppedParticle d self.config.gravity)).filter
          (fun p => decide (0 < p.life)) := by
    intro d
    rw [update_particles]
    have e : (fun p : Particle α => p.update d self.config.gravity)
        = steppedParticle d self.config.gravity :=
      funext fun p => particle_update_eq_stepped p d self.config.gravity
    rw [e]
    rfl
  refine ⟨key dt, ?_⟩
  intro pre post p hps hlife
  have hdead : decide (0 < (steppedParticle 0.1 self.config.gravity p).life) = false := by
    simp only [steppedParticle, hlife, decide_eq_false_iff_not, not_lt]
    norm_num
  have h1 : (update self 0.1).particles
      = ((pre ++ post).map (steppedParticle 0.1 self.config.gravity)).filter
          (fun q => decide (0 < q.life)) := by
    rw [key, hps]
    simp only [List.map_append, List.map_cons, List.filter_append, List.filter_cons, hdead]
    simp
  refine ⟨h1, ?_⟩
  intro hall
  have hkeep : ((pre ++ post).map (steppedParticle 0.1 self.config.gravity)).filter
      (fun q => decide (0 < q.life)) = (pre ++ post).map (steppedParticle 0.1 self.config.gravity) := by
    rw [List.filter_eq_self]
    intro q hq
    obtain ⟨r, hr, rfl⟩ := List.mem_map.mp hq
    have := hall r hr
    simp only [steppedParticle, decide_eq_true_eq]
    linarith
  simp only [getParticleCount, h1, hkeep, hps]
  simp [Nat.add_assoc]

/-- Witness of `update_spec`: `update(0.1)` on the store holding `restingParticle`
and `dyingParticle` (life 0.05) leaves one particle. -/
theorem update_spec_witness :
    twoParticleStore.particles = [restingParticle] ++ dyingParticle :: [] ∧
    dyingParticle.life = 0.05 ∧
    (∀ q ∈ [restingParticle] ++ [], (0.1 : ℚ) < q.life) ∧
    getParticleCount (update twoParticleStore 0.1) + 1 = getParticleCount twoParticleStore :=
  ⟨rfl, rfl, by simp [restingParticle]; norm_num,
    ((update_spec twoParticleStore 0.1).2 [restingParticle] [] dyingParticle rfl rfl).2
      (by simp [restingParticle]; norm_num)⟩

/-- C7: for a store of `n` particles `_syncGeometry` produces a position buffer and
a colour buffer of length `3 * n` each; for every `i < n` the `i`-th position triple
is the position of the `i`-th particle and the `i`-th colour triple is
`(r * a, g * a, b * a)` with `a = max(0, life / maxLife)` of that particle. -/
theorem syncGeometry_spec (self : ParticleSystem α) :
    ∃ pos col : List α,
      (_syncGeometry self).geometryPosition = some pos ∧
      (_syncGeometry self).geometryColor = some col ∧
      pos.length = 3 * self.particles.length ∧
      col.length = 3 * self.particles.length ∧
      ∀ (i : Nat) (hi : i < self.particles.length),
        pos[3 * i]? = some (self.particles.get ⟨i, hi⟩).position.x ∧
        pos[3 * i + 1]? = some (self.particles.get ⟨i, hi⟩).position.y ∧
        pos[3 * i + 2]? = some (self.particles.get ⟨i, hi⟩).position.z ∧
        col[3 * i]? = some ((self.particles.get ⟨i, hi⟩).color.r
          * max 0 ((self.particles.get ⟨i, hi⟩).life / (self.particles.get ⟨i, hi⟩).maxLife)) ∧
        col[3 * i + 1]? = some ((self.particles.get ⟨i, hi⟩).color.g
          * max 0 ((self.particles.get ⟨i, hi⟩).life / (self.particles.get ⟨i, hi⟩).maxLife)) ∧
        col[3 * i + 2]? = some ((self.particles.get ⟨i, hi⟩).color.b
          * max 0 ((self.particles.get ⟨i, hi⟩).life / (self.particles.get ⟨i, hi⟩).maxLife)) := by
  obtain ⟨hpos, hcol, _, _⟩ := syncGeometry_buffers self
  refine ⟨_, _, hpos, hcol, length_flatMap_triple _ _ _ _, length_flatMap_triple _ _ _ _, ?_⟩
  intro i hi
  obtain ⟨p0, p1, p2⟩ := getElem?_flatMap_triple (fun p : Particle α => p.position.x)
    (fun p => p.position.y) (fun p => p.position.z) self.particles i hi
  obtain ⟨c0, c1, c2⟩ := getElem?_flatMap_triple (fun p : Particle α => p.color.r * p.alpha)
    (fun p => p.color.g * p.alpha) (fun p => p.color.b * p.alpha) self.particles i hi
  exact ⟨p0, p1, p2, c0, c1, c2⟩

/-- Witness of `syncGeometry_spec`: the buffers of the store holding `restingParticle`
and `dyingParticle`. -/
theorem syncGeometry_spec_witness :
    (_syncGeometry twoParticleStore).geometryPosition = some [1, 0, 0, 0, 0, 0] ∧
    (_syncGeometry twoParticleStore).geometryColor = some [0, 0.8, 0.8, 0, 0.02, 0.02] := by
  obtain ⟨pos, col, hpos, hcol, hlp, hlc, h⟩ := syncGeometry_spec twoParticleStore
  obtain ⟨a0, a1, a2, b0, b1, b2⟩ := h 0 (by decide)
  obtain ⟨a3, a4, a5, b3, b4, b5⟩ := h 1 (by decide)
  rw [hpos, hcol]
  have hl1 : pos.length = 6 := hlp
  have hl2 : col.length = 6 := hlc
  match pos, col, hl1, hl2 with
  | [x0, x1, x2, x3, x4, x5], [y0, y1, y2, y3, y4, y5], _, _ =>
    simp [twoParticleStore, restingParticle, dyingParticle] at a0 a1 a2 a3 a4 a5 b0 b1 b2 b3 b4 b5
    subst a0 a1 a2 a3 a4 a5 b0 b1 b2 b3 b4 b5
    norm_num

/-- C10: after `clear()` the particle count is 0 and the position and colour
buffers produced are both empty. -/
theorem clear_spec (self : ParticleSystem α) :
    getParticleCount (clear self) = 0 ∧
    (clear self).geometryPosition = some [] ∧
    (clear self).geometryColor = some [] := by
  simp [clear, getParticleCount, _syncGeometry]

/-- A loop that pushes `f i` for each `i` of `l` appends the mapped list. -/
theorem foldl_push {β γ : Type} (f : γ → β) (l : List γ) :
    ∀ init : List β, l.foldl (fun acc i => acc ++ [f i]) init = init ++ l.map f := by
  induction l with
  | nil => intro init; simp
  | cons a l ih => intro init; simp [ih]

/-- The particle array after `emit`: the old particles followed by the created ones. -/
theorem emit_particles (sqrt : α → α) (rnd : Nat → α) (self : ParticleSystem α)
    (position direction : Vector3 α) (count : Int) :
    (emit sqrt rnd self position direction count).particles
      = self.particles
        ++ (List.range count.toNat).map (emitParticle sqrt rnd self.config position direction) := by
  simp only [emit]
  exact foldl_push _ _ _

/-- C8: `emit(origin, direction, count)` with an integer `count >= 0` leaves the
existing particles unchanged and in place and appends exactly `count` new particles
after them, each at `origin`, with the configuration colour and with life equal to
maxLife; the particle count grows by exactly `count`; nothing else of the system
changes; with `count = 0` the system is unchanged. -/
theorem emit_spec (sqrt : α → α) (rnd : Nat → α) (self : ParticleSystem α)
    (origin direction : Vector3 α) (count : Int) (hc : 0 ≤ count) :
    (∃ created : List (Particle α),
      (emit sqrt rnd self origin direction count).particles = self.particles ++ created ∧
      (created.length : Int) = count ∧
      ∀ p ∈ created, p.position = origin ∧ p.color = self.config.color ∧ p.life = p.maxLife) ∧
    (getParticleCount (emit sqrt rnd self origin direction count) : Int)
      = getParticleCount self + count ∧
    (emit sqrt rnd self origin direction count).config = self.config ∧
    (emit sqrt rnd self origin direction count).geometryPosition = self.geometryPosition ∧
    (emit sqrt rnd self origin direction count).geometryColor = self.geometryColor ∧
    emit sqrt rnd self origin direction 0 = self := by
  refine ⟨⟨_, emit_particles sqrt rnd self origin direction count, ?_, ?_⟩, ?_, rfl, rfl, rfl, ?_⟩
  · simp [Int.toNat_of_nonneg hc]
  · intro p hp
    obtain ⟨i, _, rfl⟩ := List.mem_map.mp hp
    exact ⟨rfl, rfl, rfl⟩
  · simp [getParticleCount, emit_particles, Int.toNat_of_nonneg hc]
  · simp [emit]

/-- Witness of `emit_spec`: emitting 2 particles into the store of two particles
gives a store of four. -/
theorem emit_spec_witness :
    (0 : Int) ≤ 2 ∧
    (getParticleCount
        (emit Rat.sqrt (fun _ => 0.5) twoParticleStore ⟨0, 0, 0⟩ ⟨1, 0, 0⟩ 2) : Int)
      = getParticleCount twoParticleStore + 2 :=
  ⟨by decide,
    (emit_spec Rat.sqrt (fun _ => 0.5) twoParticleStore ⟨0, 0, 0⟩ ⟨1, 0, 0⟩ 2 (by decide)).2.1⟩

/-- A squared distance is not negative. -/
theorem distanceToSquared_nonneg (a v : Vector3 α) : 0 ≤ Vector3.distanceToSquared a v := by
  simp only [Vector3.distanceToSquared]
  nlinarith [mul_self_nonneg (a.x - v.x), mul_self_nonneg (a.y - v.y),
    mul_self_nonneg (a.z - v.z)]

/-- C9: `addForce` with `radius <= 0` affects no particle: the system after the call
is the system before it (same particles with the same velocity, position and life,
same count), and the quotient `d / radius` is never computed into a particle.  The
square root is only assumed not to be negative. -/
theorem addForce_nonpositive_radius (sqrt : α → α) (hsqrt : ∀ x, 0 ≤ x → 0 ≤ sqrt x)
    (self : ParticleSystem α) (origin force : Vector3 α) (radius : α) (hr : radius ≤ 0) :
    addForce sqrt self origin force radius = self ∧
    getParticleCount (addForce sqrt self origin force radius) = getParticleCount self := by
  have hmap : (addForce sqrt self origin force radius).particles = self.particles := by
    simp only [addForce]
    conv_rhs => rw [← List.map_id self.particles]
    apply List.map_congr_left
    intro p _
    have hd : ¬ p.position.distanceTo sqrt origin < radius := by
      have := hsqrt _ (distanceToSquared_nonneg p.position origin)
      simp only [Vector3.distanceTo, not_lt]
      exact le_trans hr this
    simp [hd]
  have h : addForce sqrt self origin force radius = self := by
    have e : addForce sqrt self origin force radius
        = { self with particles := (addForce sqrt self origin force radius).particles } := rfl
    rw [e, hmap]
  exact ⟨h, by rw [h]⟩

/-- Witness of `addForce_nonpositive_radius`: radius 0 at the position of
`restingParticle` (distance 0) changes nothing. -/
theorem addForce_nonpositive_radius_witness :
    (∀ x : ℚ, 0 ≤ x → 0 ≤ Rat.sqrt x) ∧ (0 : ℚ) ≤ 0 ∧
    addForce Rat.sqrt twoParticleStore ⟨1, 0, 0⟩ ⟨10, 0, 0⟩ 0 = twoParticleStore :=
  ⟨fun x _ => Rat.sqrt_nonneg x, le_refl 0,
    (addForce_nonpositive_radius Rat.sqrt (fun x _ => Rat.sqrt_nonneg x) twoParticleStore
      ⟨1, 0, 0⟩ ⟨10, 0, 0⟩ 0 (le_refl 0)).1⟩

/-- Along calls whose time steps are not negative no particle has more life left
than its maxLife. -/
theorem reachable_life_le_maxLife (sqrt : α → α) (s : ParticleSystem α)
    (h : Reachable sqrt (fun d => 0 ≤ d) s) : ∀ p ∈ s.particles, p.life ≤ p.maxLife := by
  induction h with
  | empty s hs => simp [hs]
  | emit rnd s position direction count _ ih =>
    rw [emit_particles]
    intro p hp
    rcases List.mem_append.mp hp with h | h
    · exact ih p h
    · obtain ⟨i, _, rfl⟩ := List.mem_map.mp h
      exact le_refl _
  | addForce s position forceVec radius _ ih =>
    simp only [addForce]
    intro p hp
    obtain ⟨q, hq, rfl⟩ := List.mem_map.mp hp
    split
    · exact ih q hq
    · exact ih q hq
  | clear s _ _ =>
    simp [clear, (syncGeometry_buffers _).2.2.1]
  | update s dt hdt _ ih =>
    rw [update_particles]
    intro p hp
    obtain ⟨hmem, _⟩ := List.mem_filter.mp hp
    obtain ⟨q, hq, rfl⟩ := List.mem_map.mp hmem
    have := ih q hq
    simp only [Particle.update]
    linarith

/-- The single particle of `emittedStore`. -/
theorem emittedStore_particles :
    emittedStore.particles
      = [emitParticle Rat.sqrt (fun _ => 0.5) (ParticleSystem.new : ParticleSystem ℚ).config
          ⟨0, 0, 0⟩ ⟨1, 0, 0⟩ 0] := by
  simp [emittedStore, emit_particles, ParticleSystem.new, List.range_succ]

/-- Counterexample to C4 as stated (every real `dt`): the store reached by one `emit`
of one particle holds a particle of life 2.5 = maxLife; `update(-1)` keeps it with
life 3.5 > maxLife. -/
theorem update_negative_dt_counterexample :
    Reachable Rat.sqrt (fun _ => True) emittedStore ∧
    ∃ p ∈ (update emittedStore (-1)).particles,
      p.life = 3.5 ∧ p.maxLife = 2.5 ∧ ¬ (0 ≤ p.life ∧ p.life ≤ p.maxLife) := by
  refine ⟨Reachable.emit _ _ _ _ _ (Reachable.empty _ rfl), ?_⟩
  refine ⟨(emitParticle Rat.sqrt (fun _ => 0.5) (ParticleSystem.new : ParticleSystem ℚ).config
    ⟨0, 0, 0⟩ ⟨1, 0, 0⟩ 0).update (-1) (-0.5), ?_, ?_, ?_, ?_⟩
  · rw [update_particles, emittedStore_particles]
    simp only [List.map_cons, List.map_nil, List.filter_cons]
    have hal : ((emitParticle Rat.sqrt (fun _ => 0.5) (ParticleSystem.new : ParticleSystem ℚ).config
        ⟨0, 0, 0⟩ ⟨1, 0, 0⟩ 0).update (-1) (emittedStore.config.gravity)).alive = true := by
      simp only [Particle.alive, Particle.update, emitParticle, Particle.new, ParticleSystem.new,
        decide_eq_true_eq]
      norm_num
    rw [hal]
    simp [emittedStore, emit, ParticleSystem.new]
  · simp only [Particle.update, emitParticle, Particle.new, ParticleSystem.new]
    norm_num
  · simp only [Particle.update, emitParticle, Particle.new, ParticleSystem.new]
    norm_num
  · simp only [Particle.update, emitParticle, Particle.new, ParticleSystem.new]
    norm_num

/-- C4 (amended): for every store reachable from a store without particles by `emit`,
`addForce`, `clear` and `update` calls whose time steps are all `>= 0`, and for every
`dt >= 0`, every particle still in the store after `update(dt)` has
`0 < life <= maxLife`, hence `0 <= life <= maxLife`. -/
theorem update_life_bounds (sqrt : α → α) (s : ParticleSystem α) (dt : α)
    (hs : Reachable sqrt (fun d => 0 ≤ d) s) (hdt : 0 ≤ dt) :
    ∀ p ∈ (update s dt).particles, 0 < p.life ∧ 0 ≤ p.life ∧ p.life ≤ p.maxLife := by
  intro p hp
  have hle := reachable_life_le_maxLife sqrt _ (Reachable.update s dt hdt hs) p hp
  rw [update_particles] at hp
  obtain ⟨_, hal⟩ := List.mem_filter.mp hp
  have hpos : 0 < p.life := by simpa [Particle.alive] using hal
  exact ⟨hpos, le_of_lt hpos, hle⟩

/-- Witness of `update_life_bounds`: `update(0.05)` on `emittedStore` keeps its
particle, with life within the bounds. -/
theorem update_life_bounds_witness :
    Reachable Rat.sqrt (fun d => 0 ≤ d) emittedStore ∧ (0 : ℚ) ≤ 0.05 ∧
    ∀ p ∈ (update emittedStore 0.05).particles, 0 < p.life ∧ 0 ≤ p.life ∧ p.life ≤ p.maxLife :=
  ⟨Reachable.emit _ _ _ _ _ (Reachable.empty _ rfl), by norm_num,
    update_life_bounds Rat.sqrt emittedStore 0.05
      (Reachable.emit _ _ _ _ _ (Reachable.empty _ rfl)) (by norm_num)⟩

end StoreTheorems

/-! ## Landmark normaliser and detection callback: theorems -/

section HandTheorems

variable {α : Type} [LinearOrderedField α]

/-- The loop of `_convertLandmarks` appends the transformed points and adds them to
the running sum. -/
theorem foldl_convert (l : List (NormalizedLandmark α)) :
    ∀ acc : List (Vector3 α) × Vector3 α,
      l.foldl
          (fun (acc : List (Vector3 α) × Vector3 α) l =>
            let x := (l.x - 0.5) * 10
            let y := (0.5 - l.y) * 10
            let z := -l.z * 10
            let v : Vector3 α := ⟨x, y, z⟩
            (acc.1 ++ [v], acc.2.add v))
          acc
        = (acc.1 ++ l.map transformLandmark,
           ⟨acc.2.x + (l.map fun p => (transformLandmark p).x).sum,
            acc.2.y + (l.map fun p => (transformLandmark p).y).sum,
            acc.2.z + (l.map fun p => (transformLandmark p).z).sum⟩) := by
  induction l with
  | nil => intro acc; simp
  | cons a l ih =>
    intro acc
    rw [List.foldl_cons, ih]
    simp [Vector3.add, transformLandmark, add_assoc]

/-- The landmark list of the pose built by `_convertLandmarks`. -/
theorem convertLandmarks_landmarks (landmarks : List (NormalizedLandmark α))
    (handedness : String) :
    (_convertLandmarks landmarks handedness).landmarks = landmarks.map transformLandmark := by
  simp only [_convertLandmarks, foldl_convert, List.nil_append]

/-- C6: for a raw detection of 21 points `_convertLandmarks` returns a pose with 21
landmarks in the same order, `landmarks[i] = ((x_i - 0.5) * 10, (0.5 - y_i) * 10,
-z_i * 10)`; `indexFinger`, `middleFinger` and `palmCenter` are landmarks 8, 12 and
9; `center` is the arithmetic mean of the 21 transformed points; `handedness` is the
label passed in. -/
theorem convertLandmarks_spec (landmarks : List (NormalizedLandmark α)) (handedness : String)
    (h : landmarks.length = 21) :
    (_convertLandmarks landmarks handedness).landmarks.length = 21 ∧
    (∀ (i : Nat) (hi : i < 21),
      (_convertLandmarks landmarks handedness).landmarks[i]?
        = some ⟨((landmarks.get ⟨i, by omega⟩).x - 0.5) * 10,
            (0.5 - (landmarks.get ⟨i, by omega⟩).y) * 10,
            -(landmarks.get ⟨i, by omega⟩).z * 10⟩) ∧
    (_convertLandmarks landmarks handedness).landmarks[8]?
      = some (_convertLandmarks landmarks handedness).indexFinger ∧
    (_convertLandmarks landmarks handedness).landmarks[12]?
      = some (_convertLandmarks landmarks handedness).middleFinger ∧
    (_convertLandmarks landmarks handedness).landmarks[9]?
      = some (_convertLandmarks landmarks handedness).palmCenter ∧
    (_convertLandmarks landmarks handedness).center
      = ⟨(landmarks.map fun l => (l.x - 0.5) * 10).sum / 21,
         (landmarks.map fun l => (0.5 - l.y) * 10).sum / 21,
         (landmarks.map fun l => -l.z * 10).sum / 21⟩ ∧
    (_convertLandmarks landmarks handedness).handedness = handedness := by
  have hl := convertLandmarks_landmarks landmarks handedness
  have hget : ∀ (i : Nat) (hi : i < 21),
      (landmarks.map transformLandmark)[i]?
        = some (transformLandmark (landmarks.get ⟨i, by omega⟩)) := by
    intro i hi
    rw [List.getElem?_map, getElem?_eq_some_get landmarks i (by omega)]
    rfl
  refine ⟨by rw [hl, List.length_map, h], ?_, ?_, ?_, ?_, ?_, rfl⟩
  · intro i hi
    rw [hl, hget i hi]
    rfl
  · rw [hl]
    simp only [_convertLandmarks, foldl_convert, List.nil_append, hget 8 (by omega)]
  · rw [hl]
    simp only [_convertLandmarks, foldl_convert, List.nil_append, hget 12 (by omega)]
  · rw [hl]
    simp only [_convertLandmarks, foldl_convert, List.nil_append, hget 9 (by omega)]
  · simp only [_convertLandmarks, foldl_convert, h, Vector3.multiplyScalar, transformLandmark]
    simp [div_eq_mul_inv]

/-- Witness of `convertLandmarks_spec`: 21 raw points at `(0.6, 0.4, 0.1)` give a
pose of 21 landmarks centred at `(1, 1, -1)`. -/
theorem convertLandmarks_spec_witness :
    rawHand.length = 21 ∧
    (_convertLandmarks rawHand "Left").landmarks.length = 21 ∧
    (_convertLandmarks rawHand "Left").center = ⟨1, 1, -1⟩ :=
  ⟨rfl, (convertLandmarks_spec rawHand "Left" rfl).1, by
    rw [(convertLandmarks_spec rawHand "Left" rfl).2.2.2.2.2.1]
    simp only [rawHand, List.replicate, List.map, List.sum_cons, List.sum_nil]
    norm_num⟩

/-- The hands that `_onResults` stores: one converted pose per raw detection, in
order, whether or not the call ends by a `TypeError`. -/
theorem onResults_hands_eq (sqrt : α → α) (results : Results α) (self : HandDetector α)
    (dets : List (List (NormalizedLandmark α))) (h : results.multiHandLandmarks = some dets) :
    (_onResults sqrt results self).1.hands
      = dets.enum.map fun ilm => _convertLandmarks ilm.2 (handednessAt results ilm.1) := by
  have hfold : dets.enum.foldl
      (fun hands (ilm : Nat × List (NormalizedLandmark α)) =>
        hands ++ [_convertLandmarks ilm.2 (handednessAt results ilm.1)]) []
      = dets.enum.map fun ilm => _convertLandmarks ilm.2 (handednessAt results ilm.1) := by
    rw [foldl_push (fun ilm : Nat × List (NormalizedLandmark α) =>
      _convertLandmarks ilm.2 (handednessAt results ilm.1))]
    simp
  simp only [_onResults, h, hfold]
  split
  · split <;> simp_all
  · simp_all

/-- Counterexample to C5 as stated: a result whose only detection has a single point
(fewer than 21).  After `_onResults` the hands list has an entry for it, with one
landmark, and the call ended by a `TypeError`. -/
theorem onResults_short_counterexample :
    shortResults.multiHandLandmarks = some [[⟨0.5, 0.5, 0⟩]] ∧
    ([⟨0.5, 0.5, 0⟩] : List (NormalizedLandmark ℚ)).length < 21 ∧
    (_onResults Rat.sqrt shortResults earlierDetector).1.hands
      = [_convertLandmarks [⟨0.5, 0.5, 0⟩] "Right"] ∧
    ((_onResults Rat.sqrt shortResults earlierDetector).1.hands.map
      fun hand => hand.landmarks.length) = [1] ∧
    (_onResults Rat.sqrt shortResults earlierDetector).2 = true := by
  have hh : (_onResults Rat.sqrt shortResults earlierDetector).1.hands
      = [_convertLandmarks [⟨0.5, 0.5, 0⟩] "Right"] := by
    rw [onResults_hands_eq Rat.sqrt shortResults earlierDetector _ rfl]
    simp [List.enum, handednessAt, shortResults]
  refine ⟨rfl, by decide, hh, ?_, ?_⟩
  · rw [hh]
    simp [convertLandmarks_landmarks]
  · simp [_onResults, shortResults, List.enum, _detectGesture, convertLandmarks_landmarks]

/-- C5 (amended): `_onResults` stores one pose per raw detection, in order, whatever
the number of points of the detection: entry `i` of the hands list is
`_convertLandmarks` of detection `i` and has as many landmarks as the detection has
points.  When the result has no landmark list or holds zero hands, the hands list is
empty, the gesture is `none` and no error is raised. -/
theorem onResults_hands_spec (sqrt : α → α) (results : Results α) (self : HandDetector α) :
    (∀ dets : List (List (NormalizedLandmark α)), results.multiHandLandmarks = some dets →
      (_onResults sqrt results self).1.hands.length = dets.length ∧
      ∀ (i : Nat) (hi : i < dets.length),
        ∃ hand, (_onResults sqrt results self).1.hands[i]? = some hand ∧
          hand = _convertLandmarks (dets.get ⟨i, hi⟩) (handednessAt results i) ∧
          hand.landmarks.length = (dets.get ⟨i, hi⟩).length) ∧
    (results.multiHandLandmarks = none ∨ results.multiHandLandmarks = some [] →
      (_onResults sqrt results self).1.hands = [] ∧
      (_onResults sqrt results self).1.gesture = "none" ∧
      (_onResults sqrt results self).2 = false) := by
  constructor
  · intro dets h
    rw [onResults_hands_eq sqrt results self dets h]
    refine ⟨by simp, ?_⟩
    intro i hi
    refine ⟨_, ?_, rfl, ?_⟩
    · rw [List.getElem?_map, List.getElem?_enum, getElem?_eq_some_get dets i hi]
      rfl
    · rw [convertLandmarks_landmarks, List.length_map]
  · rintro (h | h)
    · simp [_onResults, h]
    · simp [_onResults, h, List.enum]

/-- Witness of `onResults_hands_spec`: the result with no hand clears the hands and
the gesture of the earlier frame; the result with a one-point hand stores one pose
with one landmark. -/
theorem onResults_hands_spec_witness :
    (noHandResults.multiHandLandmarks = none ∨ noHandResults.multiHandLandmarks = some []) ∧
    (_onResults Rat.sqrt noHandResults earlierDetector).1.hands = [] ∧
    (_onResults Rat.sqrt noHandResults earlierDetector).1.gesture = "none" ∧
    (_onResults Rat.sqrt noHandResults earlierDetector).2 = false ∧
    shortResults.multiHandLandmarks = some [[⟨0.5, 0.5, 0⟩]] ∧
    (_onResults Rat.sqrt shortResults earlierDetector).1.hands.length = 1 :=
  ⟨Or.inr rfl,
    ((onResults_hands_spec Rat.sqrt noHandResults earlierDetector).2 (Or.inr rfl)).1,
    ((onResults_hands_spec Rat.sqrt noHandResults earlierDetector).2 (Or.inr rfl)).2.1,
    ((onResults_hands_spec Rat.sqrt noHandResults earlierDetector).2 (Or.inr rfl)).2.2,
    rfl,
    ((onResults_hands_spec Rat.sqrt shortResults earlierDetector).1 _ rfl).1⟩

end HandTheorems

/-! ## Classifier and callback on particular frames: theorems -/

section FrameTheorems

variable {α : Type} [LinearOrderedField α]

/-- C11 (the code at a failing input): the result whose only hand has ten points
(indices 10 to 20 missing, thumb tip and index tip 4 apart).  `_convertLandmarks`
gives a pose of ten landmarks, `_detectGesture` raises a `TypeError` on it, and
`_onResults` ends by that error: the classification is not skipped, and the gesture
is not assigned. -/
theorem onResults_partial_raises :
    ((_onResults Rat.sqrt tenPointResults freshDetector).1.hands.map
      fun hand => hand.landmarks.length) = [10] ∧
    (∀ hand ∈ (_onResults Rat.sqrt tenPointResults freshDetector).1.hands,
      _detectGesture Rat.sqrt hand = none) ∧
    (_onResults Rat.sqrt tenPointResults freshDetector).2 = true := by
  have hh : (_onResults Rat.sqrt tenPointResults freshDetector).1.hands
      = [_convertLandmarks tenPointHand "Right"] := by
    rw [onResults_hands_eq Rat.sqrt tenPointResults freshDetector _ rfl]
    simp [List.enum, handednessAt, tenPointResults]
  have hd : _detectGesture Rat.sqrt (_convertLandmarks tenPointHand "Right") = none := by
    simp only [_detectGesture, convertLandmarks_landmarks, tenPointHand, List.replicate,
      List.cons_append, List.nil_append, List.map, transformLandmark, _distance,
      Vector3.distanceTo, Vector3.distanceToSquared]
    norm_num [Rat.sqrt]
  refine ⟨?_, ?_, ?_⟩
  · rw [hh]
    simp [convertLandmarks_landmarks, tenPointHand]
  · rw [hh]
    intro hand hmem
    rw [List.mem_singleton] at hmem
    rw [hmem, hd]
  · simp only [_onResults, tenPointResults, List.enum, List.enumFrom, List.foldl, List.nil_append,
      handednessAt, hd]
    simp [hd]

/-- C16 (the code at a failing input): the same result, with a one-point first
hand, leaves the gesture `pinch` after a detector whose earlier gesture was `pinch`
and `none` after a detector whose earlier gesture was `none`: the stored gesture
depends on the earlier frame. -/
theorem onResults_gesture_of_earlier_frame :
    (_onResults Rat.sqrt shortResults earlierDetector).1.gesture = "pinch" ∧
    (_onResults Rat.sqrt shortResults freshDetector).1.gesture = "none" ∧
    (_onResults Rat.sqrt shortResults earlierDetector).2 = true ∧
    (_onResults Rat.sqrt shortResults freshDetector).2 = true := by
  refine ⟨?_, ?_, ?_, ?_⟩ <;>
  simp [_onResults, shortResults, earlierDetector, freshDetector, List.enum, _detectGesture,
    convertLandmarks_landmarks]

/-- C17 (the code at a failing input): the 21 raw points of an upright open hand.
After `_convertLandmarks` every fingertip is above its PIP joint (transformed
`y = 3` against `y = 1`), the thumb tip is at distance 5 from the index tip, and
`_detectGesture` computes all four `extended` flags false and returns `fist`. -/
theorem detectGesture_upright_open_hand :
    uprightOpenHand.length = 21 ∧
    ((_convertLandmarks uprightOpenHand "Right").landmarks.map fun v => v.y)
      = [0, 0, 0, 0, 0, 0, 1, 0, 3, 0, 1, 0, 3, 0, 1, 0, 3, 0, 1, 0, 3] ∧
    _detectGesture Rat.sqrt (_convertLandmarks uprightOpenHand "Right") = some "fist" := by
  refine ⟨rfl, ?_, ?_⟩
  · simp only [convertLandmarks_landmarks, uprightOpenHand, List.map, transformLandmark]
    norm_num
  · simp only [_detectGesture, convertLandmarks_landmarks, uprightOpenHand, List.map,
      transformLandmark, _distance, Vector3.distanceTo, Vector3.distanceToSquared]
    norm_num [Rat.sqrt]

end FrameTheorems

/-! ## The point scenario: theorems -/

section PointTheorems

variable {α : Type} [LinearOrderedField α]

/-- Counterexample to C15 as stated: a pose of 21 landmarks with the index tip below
its PIP joint in `y` (-2 against -1) and the three other fingertips at the height of
their PIP joints, whose thumb tip coincides with the index tip.  The classifier
returns `pinch`, not `point`. -/
theorem detectGesture_point_pinch_counterexample :
    pointWithThumbPose.landmarks.length = 21 ∧
    (pointWithThumbPose.landmarks.map fun v => v.y)
      = [0, 0, 0, 0, -2, 0, -1, 0, -2, 0, 0, 0, 0, 0, 0, 0, 0, 0, 0, 0, 0] ∧
    _detectGesture Rat.sqrt pointWithThumbPose = some "pinch" ∧
    _detectGesture Rat.sqrt pointWithThumbPose ≠ some "point" := by
  have h : _detectGesture Rat.sqrt pointWithThumbPose = some "pinch" := by
    simp only [_detectGesture, pointWithThumbPose, List.replicate, List.cons_append,
      List.nil_append, _distance, Vector3.distanceTo, Vector3.distanceToSquared]
    norm_num [Rat.sqrt]
  refine ⟨rfl, ?_, h, ?_⟩
  · simp [pointWithThumbPose, List.replicate]
  · rw [h]
    decide

/-- C15 (amended): on a pose of 21 landmarks whose thumb tip (4) is not within
distance 1.0 of the index tip (8), whose index tip has `y` strictly below that of its
PIP joint (8 against 6) and whose middle, ring and pinky tips have `y` at or above
that of their PIP joints (12 against 10, 16 against 14, 20 against 18),
`_detectGesture` returns `point`. -/
theorem detectGesture_point (sqrt : α → α) (hand : HandPose α)
    (h : hand.landmarks.length = 21)
    (hthumb : ¬ sqrt (((hand.landmarks.get ⟨4, by omega⟩).x - (hand.landmarks.get ⟨8, by omega⟩).x) ^ 2
        + ((hand.landmarks.get ⟨4, by omega⟩).y - (hand.landmarks.get ⟨8, by omega⟩).y) ^ 2
        + ((hand.landmarks.get ⟨4, by omega⟩).z - (hand.landmarks.get ⟨8, by omega⟩).z) ^ 2) < 1)
    (hindex : (hand.landmarks.get ⟨8, by omega⟩).y < (hand.landmarks.get ⟨6, by omega⟩).y)
    (hmiddle : (hand.landmarks.get ⟨10, by omega⟩).y ≤ (hand.landmarks.get ⟨12, by omega⟩).y)
    (hring : (hand.landmarks.get ⟨14, by omega⟩).y ≤ (hand.landmarks.get ⟨16, by omega⟩).y)
    (hpinky : (hand.landmarks.get ⟨18, by omega⟩).y ≤ (hand.landmarks.get ⟨20, by omega⟩).y) :
    _detectGesture sqrt hand = some "point" := by
  rw [detectGesture_of_landmarks sqrt hand _ _ _ _ _ _ _ _ _
    (getElem?_eq_some_get hand.landmarks 4 (by omega))
    (getElem?_eq_some_get hand.landmarks 6 (by omega))
    (getElem?_eq_some_get hand.landmarks 8 (by omega))
    (getElem?_eq_some_get hand.landmarks 10 (by omega))
    (getElem?_eq_some_get hand.landmarks 12 (by omega))
    (getElem?_eq_some_get hand.landmarks 14 (by omega))
    (getElem?_eq_some_get hand.landmarks 16 (by omega))
    (getElem?_eq_some_get hand.landmarks 18 (by omega))
    (getElem?_eq_some_get hand.landmarks 20 (by omega))]
  rw [decide_eq_false hthumb, decide_eq_true hindex, decide_eq_false (not_lt.mpr hmiddle),
    decide_eq_false (not_lt.mpr hring), decide_eq_false (not_lt.mpr hpinky)]
  rfl

/-- Witness of `detectGesture_point`: `pointPose`, with the thumb tip 3 away from the
index tip, is classified as `point`. -/
theorem detectGesture_point_witness :
    pointPose.landmarks.length = 21 ∧ _detectGesture Rat.sqrt pointPose = some "point" :=
  ⟨rfl, detectGesture_point Rat.sqrt pointPose rfl
    (by
      simp only [pointPose, List.replicate, List.cons_append, List.nil_append, List.get]
      norm_num [Rat.sqrt])
    (by
      simp only [pointPose, List.replicate, List.cons_append, List.nil_append, List.get]
      norm_num)
    (by
      simp only [pointPose, List.replicate, List.cons_append, List.nil_append, List.get]
      norm_num)
    (by
      simp only [pointPose, List.replicate, List.cons_append, List.nil_append, List.get]
      norm_num)
    (by
      simp only [pointPose, List.replicate, List.cons_append, List.nil_append, List.get]
      norm_num)⟩

end PointTheorems

/-! ## Intent dispatcher: theorems -/

section DispatchTheorems

variable {α : Type} [LinearOrderedField α] [FloorRing α]

open ParticleSystem

/-- The `point` case of the switch: one `emit` call. -/
theorem dispatchHand_point (sqrt : α → α) (rnd : Nat → α) (st : ParticleSystem α × Nat)
    (hand : HandPose α) :
    dispatchHand sqrt rnd "point" st hand
      = (emit sqrt (fun j => rnd (st.2 + j)) st.1 hand.indexFinger
            ((hand.indexFinger.sub hand.palmCenter).normalize sqrt)
            ⌈st.1.config.emissionRate * 0.02⌉,
          st.2 + 5 * (⌈st.1.config.emissionRate * 0.02⌉ : Int).toNat) := by
  simp [dispatchHand]

/-- The `pinch` case of the switch: one `addForce` call. -/
theorem dispatchHand_pinch (sqrt : α → α) (rnd : Nat → α) (st : ParticleSystem α × Nat)
    (hand : HandPose α) :
    dispatchHand sqrt rnd "pinch" st hand
      = (addForce sqrt st.1 hand.indexFinger
            (((hand.indexFinger.sub hand.palmCenter).normalize sqrt).multiplyScalar (-10)) 4,
          st.2) := by
  simp [dispatchHand]

/-- The `fist` case of the switch does nothing. -/
theorem dispatchHand_fist (sqrt : α → α) (rnd : Nat → α) (st : ParticleSystem α × Nat)
    (hand : HandPose α) : dispatchHand sqrt rnd "fist" st hand = st := by
  simp [dispatchHand]

/-- The label `none` matches no case of the switch. -/
theorem dispatchHand_none (sqrt : α → α) (rnd : Nat → α) (st : ParticleSystem α × Nat)
    (hand : HandPose α) : dispatchHand sqrt rnd "none" st hand = st := by
  simp [dispatchHand]

/-- A loop whose body returns its state returns the initial state. -/
theorem foldl_const_state {σ β : Type} (f : σ → β → σ) (hf : ∀ s b, f s b = s) (l : List β) :
    ∀ s, l.foldl f s = s := by
  induction l with
  | nil => intro s; rfl
  | cons b l ih => intro s; rw [List.foldl_cons, hf, ih]

/-- C14: `_handleGestures` leaves the particle system unchanged (every particle, the
count, and everything else) when the gesture is `fist` or `none`, and also when the
readiness flag of the detector is false, whatever the gesture and the hands. -/
theorem handleGestures_no_effect (sqrt : α → α) (rnd : Nat → α) (handDetector : HandDetector α)
    (particleSystem : ParticleSystem α)
    (h : handDetector.readyFlag = false ∨ handDetector.gesture = "fist"
      ∨ handDetector.gesture = "none") :
    _handleGestures sqrt rnd handDetector particleSystem = particleSystem ∧
    getParticleCount (_handleGestures sqrt rnd handDetector particleSystem)
      = getParticleCount particleSystem := by
  have key : _handleGestures sqrt rnd handDetector particleSystem = particleSystem := by
    unfold _handleGestures
    rcases h with h | h | h
    · simp [isReady, h]
    · split
      · rfl
      · simp only [getGesture, h]
        rw [foldl_const_state _ (dispatchHand_fist sqrt rnd)]
    · split
      · rfl
      · simp only [getGesture, h]
        rw [foldl_const_state _ (dispatchHand_none sqrt rnd)]
  exact ⟨key, by rw [key]⟩

/-- Witness of `handleGestures_no_effect`: a ready detector holding `unitHand` with
the gesture `fist` or `none`, and a detector that is not ready with the gesture
`pinch`, all leave `palmStore` as it is. -/
theorem handleGestures_no_effect_witness :
    _handleGestures Rat.sqrt (fun _ => 0.5) (unitHandDetector "fist") palmStore = palmStore ∧
    _handleGestures Rat.sqrt (fun _ => 0.5) (unitHandDetector "none") palmStore = palmStore ∧
    _handleGestures Rat.sqrt (fun _ => 0.5) { unitHandDetector "pinch" with readyFlag := false }
      palmStore = palmStore :=
  ⟨(handleGestures_no_effect Rat.sqrt (fun _ => 0.5) (unitHandDetector "fist") palmStore
      (Or.inr (Or.inl rfl))).1,
   (handleGestures_no_effect Rat.sqrt (fun _ => 0.5) (unitHandDetector "none") palmStore
      (Or.inr (Or.inr rfl))).1,
   (handleGestures_no_effect Rat.sqrt (fun _ => 0.5)
      { unitHandDetector "pinch" with readyFlag := false } palmStore (Or.inl rfl)).1⟩

/-- The loop of `_handleGestures` under the gesture `point`, on a system whose
emission rate is `rate`: one `emit` call per hand with the same count, and
`⌈rate * 0.02⌉.toNat` more particles per hand. -/
theorem foldl_dispatch_point (sqrt : α → α) (rnd : Nat → α) (rate : α)
    (hands : List (HandPose α)) :
    ∀ st : ParticleSystem α × Nat, st.1.config.emissionRate = rate →
      hands.foldl (dispatchHand sqrt rnd "point") st
        = hands.foldl
            (fun st hand =>
              (emit sqrt (fun j => rnd (st.2 + j)) st.1 hand.indexFinger
                  ((hand.indexFinger.sub hand.palmCenter).normalize sqrt) ⌈rate * 0.02⌉,
                st.2 + 5 * (⌈rate * 0.02⌉ : Int).toNat))
            st ∧
      (hands.foldl (dispatchHand sqrt rnd "point") st).1.particles.length
        = st.1.particles.length + hands.length * (⌈rate * 0.02⌉ : Int).toNat := by
  induction hands with
  | nil => intro st _; simp
  | cons hand hands ih =>
    intro st hst
    rw [List.foldl_cons, List.foldl_cons, dispatchHand_point, hst]
    obtain ⟨h1, h2⟩ := ih
      (emit sqrt (fun j => rnd (st.2 + j)) st.1 hand.indexFinger
          ((hand.indexFinger.sub hand.palmCenter).normalize sqrt) ⌈rate * 0.02⌉,
        st.2 + 5 * (⌈rate * 0.02⌉ : Int).toNat) hst
    refine ⟨h1, ?_⟩
    rw [h2]
    simp only [emit_particles, List.length_append, List.length_map, List.length_range,
      List.length_cons]
    ring

/-- C12: when the detector is ready and the gesture is `point`, `_handleGestures`
calls `emit` once per detected hand, in order, with origin the hand's `indexFinger`,
direction `normalize(indexFinger - palmCenter)` and count `ceil(emissionRate * 0.02)`;
for `emissionRate >= 0` the particle count grows by exactly
`hands * ceil(emissionRate * 0.02)`, which is 2 per hand at the rate 60.  No time
step enters the computation. -/
theorem handleGestures_point (sqrt : α → α) (rnd : Nat → α) (handDetector : HandDetector α)
    (particleSystem : ParticleSystem α) (hready : handDetector.readyFlag = true)
    (hgesture : handDetector.gesture = "point")
    (hrate : 0 ≤ particleSystem.config.emissionRate) :
    _handleGestures sqrt rnd handDetector particleSystem
      = (handDetector.hands.foldl
          (fun st hand =>
            (emit sqrt (fun j => rnd (st.2 + j)) st.1 hand.indexFinger
                ((hand.indexFinger.sub hand.palmCenter).normalize sqrt)
                ⌈particleSystem.config.emissionRate * 0.02⌉,
              st.2 + 5 * (⌈particleSystem.config.emissionRate * 0.02⌉ : Int).toNat))
          (particleSystem, 0)).1 ∧
    (getParticleCount (_handleGestures sqrt rnd handDetector particleSystem) : Int)
      = getParticleCount particleSystem
        + handDetector.hands.length * ⌈particleSystem.config.emissionRate * 0.02⌉ ∧
    (particleSystem.config.emissionRate = 60 →
      getParticleCount (_handleGestures sqrt rnd handDetector particleSystem)
        = getParticleCount particleSystem + 2 * handDetector.hands.length) := by
  obtain ⟨h1, h2⟩ := foldl_dispatch_point sqrt rnd particleSystem.config.emissionRate
    handDetector.hands (particleSystem, 0) rfl
  have hg : _handleGestures sqrt rnd handDetector particleSystem
      = (handDetector.hands.foldl (dispatchHand sqrt rnd "point") (particleSystem, 0)).1 := by
    simp [_handleGestures, isReady, hready, getGesture, getHands, hgesture]
  have hceil : (0 : Int) ≤ ⌈particleSystem.config.emissionRate * 0.02⌉ :=
    Int.ceil_nonneg (mul_nonneg hrate (by norm_num))
  refine ⟨by rw [hg, h1], ?_, ?_⟩
  · rw [hg]
    simp only [getParticleCount, h2]
    push_cast
    rw [Int.toNat_of_nonneg hceil]
  · intro h60
    have hc : ⌈particleSystem.config.emissionRate * 0.02⌉ = 2 := by
      rw [h60, Int.ceil_eq_iff]
      constructor <;> norm_num
    rw [hg]
    simp only [getParticleCount, h2, hc]
    simp [Nat.mul_comm]

/-- Witness of `handleGestures_point`: one hand pointing at the default rate 60 adds
2 particles to the store of one particle. -/
theorem handleGestures_point_witness :
    (unitHandDetector "point").readyFlag = true ∧
    (unitHandDetector "point").gesture = "point" ∧
    (0 : ℚ) ≤ palmStore.config.emissionRate ∧
    getParticleCount (_handleGestures Rat.sqrt (fun _ => 0.5) (unitHandDetector "point") palmStore)
      = 3 :=
  ⟨rfl, rfl, by norm_num [palmStore, ParticleSystem.new],
    (handleGestures_point Rat.sqrt (fun _ => 0.5) (unitHandDetector "point") palmStore rfl rfl
      (by norm_num [palmStore, ParticleSystem.new])).2.2 rfl⟩

/-- Counterexample to C13 as stated: a hand with palm centre at the origin and index
fingertip at `(1, 0, 0)` pinches; the particle at rest at the origin is at distance 1
from the fingertip and receives the velocity change `(-7.5, 0, 0)`, whose component
along the direction from the particle to the fingertip, `(1, 0, 0)`, is negative. -/
theorem handleGestures_pinch_counterexample :
    (_handleGestures Rat.sqrt (fun _ => 0.5) (unitHandDetector "pinch") palmStore).particles
      = [{ palmParticle with velocity := ⟨-7.5, 0, 0⟩ }] ∧
    Vector3.distanceTo Rat.sqrt palmParticle.position unitHand.indexFinger = 1 ∧
    Vector3.sub unitHand.indexFinger palmParticle.position = ⟨1, 0, 0⟩ ∧
    Vector3.dot (Vector3.sub ⟨-7.5, 0, 0⟩ palmParticle.velocity)
      (Vector3.sub unitHand.indexFinger palmParticle.position) = -7.5 := by
  refine ⟨?_, ?_, ?_, ?_⟩
  · simp only [_handleGestures, isReady, getHands, getGesture, unitHandDetector, List.foldl,
      dispatchHand_pinch, addForce, palmStore, List.map, unitHand, palmParticle,
      Vector3.distanceTo, Vector3.distanceToSquared, Vector3.sub, Vector3.normalize,
      Vector3.length, Vector3.divideScalar, Vector3.multiplyScalar, Vector3.add]
    norm_num [Rat.sqrt]
  · simp only [Vector3.distanceTo, Vector3.distanceToSquared, palmParticle, unitHand]
    norm_num [Rat.sqrt]
  · simp [Vector3.sub, palmParticle, unitHand]
  · simp only [Vector3.dot, Vector3.sub, palmParticle, unitHand]
    norm_num

/-- C13 (amended): under the gesture `pinch` the dispatch for a hand applies
`addForce(indexFinger, dir * -10, 4)` with `dir = normalize(indexFinger - palmCenter)`;
every particle within distance 4 of the index fingertip receives the velocity change
`dir * (-10 * (1 - d / 4))`, the same direction for every particle, whose component
along `-dir` (from the index fingertip back toward the palm centre) is not
negative. -/
theorem dispatchHand_pinch_spec (sqrt : α → α) (rnd : Nat → α)
    (particleSystem : ParticleSystem α) (k : Nat) (hand : HandPose α) :
    (dispatchHand sqrt rnd "pinch" (particleSystem, k) hand).1
      = addForce sqrt particleSystem hand.indexFinger
          (((hand.indexFinger.sub hand.palmCenter).normalize sqrt).multiplyScalar (-10)) 4 ∧
    ∀ (i : Nat) (hi : i < particleSystem.particles.length),
      Vector3.distanceTo sqrt (particleSystem.particles.get ⟨i, hi⟩).position hand.indexFinger
        < 4 →
      ∃ q, (dispatchHand sqrt rnd "pinch" (particleSystem, k) hand).1.particles[i]? = some q ∧
        q.velocity.sub (particleSystem.particles.get ⟨i, hi⟩).velocity
          = ((hand.indexFinger.sub hand.palmCenter).normalize sqrt).multiplyScalar
              (-10 * (1 - Vector3.distanceTo sqrt
                (particleSystem.particles.get ⟨i, hi⟩).position hand.indexFinger / 4)) ∧
        0 ≤ (q.velocity.sub (particleSystem.particles.get ⟨i, hi⟩).velocity).dot
              (((hand.indexFinger.sub hand.palmCenter).normalize sqrt).multiplyScalar (-1)) := by
  refine ⟨by rw [dispatchHand_pinch], ?_⟩
  intro i hi hd
  generalize hp : particleSystem.particles.get ⟨i, hi⟩ = p at hd ⊢
  have hget : particleSystem.particles[i]? = some p := by
    rw [getElem?_eq_some_get particleSystem.particles i hi, hp]
  generalize hdir : (hand.indexFinger.sub hand.palmCenter).normalize sqrt = dir
  generalize hdist : Vector3.distanceTo sqrt p.position hand.indexFinger = d at hd ⊢
  have hfac : 0 ≤ 1 - d / 4 := by
    have : d / 4 < 1 := (div_lt_one (by norm_num : (0 : α) < 4)).mpr hd
    linarith
  have hv : (p.velocity.add ((dir.multiplyScalar (-10)).multiplyScalar (1 - d / 4))).sub p.velocity
      = dir.multiplyScalar (-10 * (1 - d / 4)) := by
    simp only [Vector3.add, Vector3.sub, Vector3.multiplyScalar, Vector3.mk.injEq]
    refine ⟨by ring, by ring, by ring⟩
  refine ⟨{ p with velocity :=
      p.velocity.add ((dir.multiplyScalar (-10)).multiplyScalar (1 - d / 4)) }, ?_, hv, ?_⟩
  · rw [dispatchHand_pinch]
    simp only [addForce, List.getElem?_map, hget, Option.map_some', hdir, hdist, hd, if_true]
  · show 0 ≤ ((p.velocity.add ((dir.multiplyScalar (-10)).multiplyScalar (1 - d / 4))).sub
        p.velocity).dot (dir.multiplyScalar (-1))
    rw [hv]
    simp only [Vector3.dot, Vector3.multiplyScalar]
    have hsq : 0 ≤ dir.x * dir.x + dir.y * dir.y + dir.z * dir.z := by
      nlinarith [mul_self_nonneg dir.x, mul_self_nonneg dir.y, mul_self_nonneg dir.z]
    have e : dir.x * (-10 * (1 - d / 4)) * (dir.x * -1) + dir.y * (-10 * (1 - d / 4)) * (dir.y * -1)
        + dir.z * (-10 * (1 - d / 4)) * (dir.z * -1)
        = 10 * ((1 - d / 4) * (dir.x * dir.x + dir.y * dir.y + dir.z * dir.z)) := by ring
    rw [e]
    exact mul_nonneg (by norm_num) (mul_nonneg hfac hsq)

/-- Witness of `dispatchHand_pinch_spec`: `palmParticle` is within distance 4 of the
index fingertip of `unitHand`. -/
theorem dispatchHand_pinch_spec_witness :
    Vector3.distanceTo Rat.sqrt (palmStore.particles.get ⟨0, by decide⟩).position
      unitHand.indexFinger < 4 ∧
    ∃ q, (dispatchHand Rat.sqrt (fun _ => 0.5) "pinch" (palmStore, 0) unitHand).1.particles[0]?
        = some q ∧
      q.velocity.sub (palmStore.particles.get ⟨0, by decide⟩).velocity
        = ((unitHand.indexFinger.sub unitHand.palmCenter).normalize Rat.sqrt).multiplyScalar
            (-10 * (1 - Vector3.distanceTo Rat.sqrt
              (palmStore.particles.get ⟨0, by decide⟩).position unitHand.indexFinger / 4)) ∧
      0 ≤ (q.velocity.sub (palmStore.particles.get ⟨0, by decide⟩).velocity).dot
            (((unitHand.indexFinger.sub unitHand.palmCenter).normalize Rat.sqrt).multiplyScalar
              (-1)) :=
  ⟨by
      simp only [Vector3.distanceTo, Vector3.distanceToSquared, palmStore, palmParticle, unitHand,
        List.get]
      norm_num [Rat.sqrt],
    (dispatchHand_pinch_spec Rat.sqrt (fun _ => 0.5) palmStore 0 unitHand).2 0 (by decide)
      (by
        simp only [Vector3.distanceTo, Vector3.distanceToSquared, palmStore, palmParticle,
          unitHand, List.get]
        norm_num [Rat.sqrt])⟩

end DispatchTheorems

/-! ## Norm of the emitted velocity and alpha of the survivors: theorems -/

section NormTheorems

variable {α : Type} [LinearOrderedField α]

open ParticleSystem

/-- A vector whose squared norm is zero is the zero vector. -/
theorem eq_zero_of_normSq_eq_zero (v : Vector3 α) (h : v.x * v.x + v.y * v.y + v.z * v.z = 0) :
    v = ⟨0, 0, 0⟩ := by
  have hx : v.x = 0 := mul_self_eq_zero.mp (le_antisymm
    (by nlinarith [mul_self_nonneg v.y, mul_self_nonneg v.z]) (mul_self_nonneg _))
  have hy : v.y = 0 := mul_self_eq_zero.mp (le_antisymm
    (by nlinarith [mul_self_nonneg v.x, mul_self_nonneg v.z]) (mul_self_nonneg _))
  have hz : v.z = 0 := mul_self_eq_zero.mp (le_antisymm
    (by nlinarith [mul_self_nonneg v.x, mul_self_nonneg v.y]) (mul_self_nonneg _))
  cases v
  simp_all

/-- Normalising a vector that is not zero gives a vector of squared norm 1. -/
theorem normSq_normalize (sqrt : α → α) (hsqrt : IsSqrt sqrt) (v : Vector3 α)
    (hv : v ≠ ⟨0, 0, 0⟩) :
    (v.normalize sqrt).x * (v.normalize sqrt).x + (v.normalize sqrt).y * (v.normalize sqrt).y
      + (v.normalize sqrt).z * (v.normalize sqrt).z = 1 := by
  have hn0 : v.x * v.x + v.y * v.y + v.z * v.z ≠ 0 := fun h => hv (eq_zero_of_normSq_eq_zero v h)
  have hnn : 0 ≤ v.x * v.x + v.y * v.y + v.z * v.z := by
    nlinarith [mul_self_nonneg v.x, mul_self_nonneg v.y, mul_self_nonneg v.z]
  obtain ⟨_, hsq⟩ := hsqrt _ hnn
  have hlen : sqrt (v.x * v.x + v.y * v.y + v.z * v.z) ≠ 0 := by
    intro h0
    rw [h0, mul_zero] at hsq
    exact hn0 hsq.symm
  simp only [Vector3.normalize, Vector3.length, Vector3.divideScalar, Vector3.multiplyScalar,
    hlen, if_false]
  field_simp
  nlinarith [hsq]

/-- The length of a vector of squared norm 1 is 1. -/
theorem length_eq_one (sqrt : α → α) (hsqrt : IsSqrt sqrt) (v : Vector3 α)
    (hv : v.x * v.x + v.y * v.y + v.z * v.z = 1) : Vector3.length sqrt v = 1 := by
  obtain ⟨h0, hsq⟩ := hsqrt 1 (by norm_num)
  simp only [Vector3.length, hv]
  exact (mul_self_inj h0 (by norm_num)).mp (by rw [hsq]; norm_num)

/-- The length of a vector of squared norm 1 scaled by `s >= 0` is `s`. -/
theorem length_multiplyScalar (sqrt : α → α) (hsqrt : IsSqrt sqrt) (v : Vector3 α) (s : α)
    (hv : v.x * v.x + v.y * v.y + v.z * v.z = 1) (hs : 0 ≤ s) :
    Vector3.length sqrt (v.multiplyScalar s) = s := by
  have e : v.x * s * (v.x * s) + v.y * s * (v.y * s) + v.z * s * (v.z * s) = s * s := by
    have : v.x * s * (v.x * s) + v.y * s * (v.y * s) + v.z * s * (v.z * s)
        = (v.x * v.x + v.y * v.y + v.z * v.z) * (s * s) := by ring
    rw [this, hv, one_mul]
  obtain ⟨h0, hsq⟩ := hsqrt (s * s) (mul_self_nonneg s)
  simp only [Vector3.length, Vector3.multiplyScalar, e]
  exact (mul_self_inj h0 hs).mp hsq

/-- A vector of squared norm 1 moved by at most 0.2 along each axis is not zero. -/
theorem jitter_ne_zero (u : Vector3 α) (a b c : α)
    (hu : u.x * u.x + u.y * u.y + u.z * u.z = 1)
    (ha : -0.2 ≤ a ∧ a ≤ 0.2) (hb : -0.2 ≤ b ∧ b ≤ 0.2) (hc : -0.2 ≤ c ∧ c ≤ 0.2) :
    (⟨u.x + a, u.y + b, u.z + c⟩ : Vector3 α) ≠ ⟨0, 0, 0⟩ := by
  intro h
  have hx : u.x = -a := by
    have := congrArg Vector3.x h
    simp only at this
    linarith
  have hy : u.y = -b := by
    have := congrArg Vector3.y h
    simp only at this
    linarith
  have hz : u.z = -c := by
    have := congrArg Vector3.z h
    simp only at this
    linarith
  rw [hx, hy, hz] at hu
  obtain ⟨ha1, ha2⟩ := ha
  obtain ⟨hb1, hb2⟩ := hb
  obtain ⟨hc1, hc2⟩ := hc
  norm_num at ha1 ha2 hb1 hb2 hc1 hc2
  nlinarith [mul_nonneg (sub_nonneg.mpr ha2) (by linarith : (0 : α) ≤ a + 1 / 5),
    mul_nonneg (sub_nonneg.mpr hb2) (by linarith : (0 : α) ≤ b + 1 / 5),
    mul_nonneg (sub_nonneg.mpr hc2) (by linarith : (0 : α) ≤ c + 1 / 5)]

/-- The `i`-th particle created by `emit` is the one its loop body builds for `i`. -/
theorem emit_getElem? (sqrt : α → α) (rnd : Nat → α) (self : ParticleSystem α)
    (origin direction : Vector3 α) (count : Int) (i : Nat) (hi : i < count.toNat) :
    (emit sqrt rnd self origin direction count).particles[self.particles.length + i]?
      = some (emitParticle sqrt rnd self.config origin direction i) := by
  rw [emit_particles, List.getElem?_append_right (Nat.le_add_right _ _)]
  simp [List.getElem?_map, List.getElem?_range hi]

/-- Counterexample to C18 as stated (every speed `>= 0`): with the configured speed 0
the emitted particle has velocity zero, of norm 0, which is not in the empty interval
`[0.5 * 0, 1.5 * 0)`. -/
theorem emit_zero_speed_counterexample :
    (0 : ℚ) ≤ stillStore.config.speed ∧
    (emit Rat.sqrt (fun _ => 0.5) stillStore ⟨0, 0, 0⟩ ⟨1, 0, 0⟩ 1).particles.map
        (fun p => Vector3.length Rat.sqrt p.velocity) = [0] ∧
    ¬ ((0 : ℚ) < 1.5 * stillStore.config.speed) := by
  refine ⟨by simp [stillStore], ?_, by simp [stillStore]⟩
  simp only [emit_particles, stillStore, ParticleSystem.new, List.nil_append]
  simp [List.range_succ, emitParticle, Particle.new, Vector3.multiplyScalar, Vector3.length]

/-- C18 (amended): with a square root that satisfies `IsSqrt`, a direction that is
not zero, a configured speed `>= 0` and random draws in `[0, 1)`, the `i`-th particle
created by `emit` has a velocity of Euclidean norm `speed * (0.5 + r)` for its draw
`r`; the norm lies in `[0.5 * speed, 1.5 * speed]`, and below `1.5 * speed` when
`speed > 0`.  The jittered direction (unit direction plus an offset in `[-0.2, 0.2)`
per axis) is not the zero vector and its renormalisation has norm 1. -/
theorem emit_velocity_norm (sqrt : α → α) (hsqrt : IsSqrt sqrt) (rnd : Nat → α)
    (hrnd : ∀ k, 0 ≤ rnd k ∧ rnd k < 1) (self : ParticleSystem α)
    (origin direction : Vector3 α) (hdir : direction ≠ ⟨0, 0, 0⟩)
    (hspeed : 0 ≤ self.config.speed) (count : Int) (i : Nat) (hi : i < count.toNat) :
    (⟨(direction.normalize sqrt).x + (rnd (5 * i) - 0.5) * 0.4,
      (direction.normalize sqrt).y + (rnd (5 * i + 1) - 0.5) * 0.4,
      (direction.normalize sqrt).z + (rnd (5 * i + 2) - 0.5) * 0.4⟩ : Vector3 α) ≠ ⟨0, 0, 0⟩ ∧
    Vector3.length sqrt
      ((⟨(direction.normalize sqrt).x + (rnd (5 * i) - 0.5) * 0.4,
        (direction.normalize sqrt).y + (rnd (5 * i + 1) - 0.5) * 0.4,
        (direction.normalize sqrt).z + (rnd (5 * i + 2) - 0.5) * 0.4⟩ : Vector3 α).normalize
          sqrt) = 1 ∧
    ∃ p, (emit sqrt rnd self origin direction count).particles[self.particles.length + i]?
        = some p ∧
      Vector3.length sqrt p.velocity = self.config.speed * (0.5 + rnd (5 * i + 3)) ∧
      0.5 * self.config.speed ≤ Vector3.length sqrt p.velocity ∧
      Vector3.length sqrt p.velocity ≤ 1.5 * self.config.speed ∧
      (0 < self.config.speed → Vector3.length sqrt p.velocity < 1.5 * self.config.speed) := by
  have hu := normSq_normalize sqrt hsqrt direction hdir
  have hbound : ∀ k, -0.2 ≤ (rnd k - 0.5) * 0.4 ∧ (rnd k - 0.5) * 0.4 ≤ 0.2 := by
    intro k
    obtain ⟨h0, h1⟩ := hrnd k
    constructor <;> norm_num <;> linarith
  have hjit := jitter_ne_zero (direction.normalize sqrt) _ _ _ hu (hbound (5 * i))
    (hbound (5 * i + 1)) (hbound (5 * i + 2))
  have hw := normSq_normalize sqrt hsqrt _ hjit
  obtain ⟨hr0, hr1⟩ := hrnd (5 * i + 3)
  have hs : 0 ≤ self.config.speed * (0.5 + rnd (5 * i + 3)) :=
    mul_nonneg hspeed (by norm_num; linarith)
  have hlen : Vector3.length sqrt (emitParticle sqrt rnd self.config origin direction i).velocity
      = self.config.speed * (0.5 + rnd (5 * i + 3)) := by
    simp only [emitParticle, Particle.new]
    exact length_multiplyScalar sqrt hsqrt _ _ hw hs
  refine ⟨hjit, length_eq_one sqrt hsqrt _ hw, _,
    emit_getElem? sqrt rnd self origin direction count i hi, hlen, ?_, ?_, ?_⟩
  · rw [hlen]
    nlinarith
  · rw [hlen]
    nlinarith
  · intro hpos
    rw [hlen]
    nlinarith

/-- Witness of `emit_velocity_norm`: over the reals with `Real.sqrt`, direction
`(1, 0, 0)`, the default speed 6 and every draw equal to 0.5, the emitted particle has
a velocity of norm `6 * (0.5 + 0.5)`. -/
theorem emit_velocity_norm_witness :
    IsSqrt Real.sqrt ∧ (∀ _k : Nat, (0 : ℝ) ≤ 0.5 ∧ (0.5 : ℝ) < 1) ∧
    (⟨1, 0, 0⟩ : Vector3 ℝ) ≠ ⟨0, 0, 0⟩ ∧
    (0 : ℝ) ≤ (ParticleSystem.new : ParticleSystem ℝ).config.speed ∧
    ∃ p, (emit Real.sqrt (fun _ => 0.5) ParticleSystem.new ⟨0, 0, 0⟩ ⟨1, 0, 0⟩ 1).particles[
        (ParticleSystem.new : ParticleSystem ℝ).particles.length + 0]? = some p ∧
      Vector3.length Real.sqrt p.velocity
        = (ParticleSystem.new : ParticleSystem ℝ).config.speed * (0.5 + 0.5) :=
  have hsqrt : IsSqrt Real.sqrt := fun x hx => ⟨Real.sqrt_nonneg x, Real.mul_self_sqrt hx⟩
  have hrnd : ∀ _k : Nat, (0 : ℝ) ≤ 0.5 ∧ (0.5 : ℝ) < 1 := fun _ => by norm_num
  have hdir : (⟨1, 0, 0⟩ : Vector3 ℝ) ≠ ⟨0, 0, 0⟩ := by
    intro h
    have := congrArg Vector3.x h
    norm_num at this
  have hspeed : (0 : ℝ) ≤ (ParticleSystem.new : ParticleSystem ℝ).config.speed := by
    norm_num [ParticleSystem.new]
  ⟨hsqrt, hrnd, hdir, hspeed,
    match (emit_velocity_norm Real.sqrt hsqrt (fun _ => 0.5) hrnd ParticleSystem.new ⟨0, 0, 0⟩
      ⟨1, 0, 0⟩ hdir hspeed 1 0 (by decide)).2.2 with
    | ⟨p, hp, hlen, _⟩ => ⟨p, hp, hlen⟩⟩

/-- C19: on a store whose particles all have `life <= maxLife`, and for `dt >= 0`,
every particle that remains after `update(dt)` has `0 < life <= maxLife`; so its
maxLife is not zero, its alpha is `life / maxLife` (the `max(0, .)` guard is not the
active branch) and `0 < alpha <= 1`. -/
theorem update_alpha_bounds (self : ParticleSystem α) (dt : α)
    (hlife : ∀ p ∈ self.particles, p.life ≤ p.maxLife) (hdt : 0 ≤ dt) :
    ∀ p ∈ (update self dt).particles,
      0 < p.life ∧ p.life ≤ p.maxLife ∧ p.maxLife ≠ 0 ∧
      p.alpha = p.life / p.maxLife ∧ 0 < p.alpha ∧ p.alpha ≤ 1 := by
  intro p hp
  rw [update_particles] at hp
  obtain ⟨hmem, hal⟩ := List.mem_filter.mp hp
  obtain ⟨q, hq, rfl⟩ := List.mem_map.mp hmem
  have hqle := hlife q hq
  have hpos : 0 < (q.update dt self.config.gravity).life := by
    simpa [Particle.alive] using hal
  have hle : (q.update dt self.config.gravity).life ≤ (q.update dt self.config.gravity).maxLife := by
    simp only [Particle.update]
    linarith
  have hmax : 0 < (q.update dt self.config.gravity).maxLife := lt_of_lt_of_le hpos hle
  have hquot : 0 < (q.update dt self.config.gravity).life / (q.update dt self.config.gravity).maxLife :=
    div_pos hpos hmax
  have halpha : (q.update dt self.config.gravity).alpha
      = (q.update dt self.config.gravity).life / (q.update dt self.config.gravity).maxLife := by
    unfold Particle.alpha
    exact max_eq_right (le_of_lt hquot)
  refine ⟨hpos, hle, ne_of_gt hmax, halpha, ?_, ?_⟩
  · rw [halpha]; exact hquot
  · rw [halpha]; exact (div_le_one hmax).mpr hle

/-- Witness of `update_alpha_bounds`: `update(0.1)` on the store holding
`restingParticle` and `dyingParticle`. -/
theorem update_alpha_bounds_witness :
    (∀ p ∈ twoParticleStore.particles, p.life ≤ p.maxLife) ∧ (0 : ℚ) ≤ 0.1 ∧
    ∀ p ∈ (update twoParticleStore 0.1).particles,
      0 < p.life ∧ p.life ≤ p.maxLife ∧ p.maxLife ≠ 0 ∧
      p.alpha = p.life / p.maxLife ∧ 0 < p.alpha ∧ p.alpha ≤ 1 :=
  have hlife : ∀ p ∈ twoParticleStore.particles, p.life ≤ p.maxLife := by
    intro p hp
    simp only [twoParticleStore, List.mem_cons, List.mem_singleton, List.not_mem_nil,
      or_false] at hp
    rcases hp with rfl | rfl
    · norm_num [restingParticle]
    · norm_num [dyingParticle]
  ⟨hlife, by norm_num, update_alpha_bounds twoParticleStore 0.1 hlife (by norm_num)⟩

end NormTheorems

end Particles3D
